import Mathlib

/-!
Snake game (src/src/App.js): embedding of the simulation

The React component `App` keeps its state in `useState` cells and one `useRef`
(`speed`).  The functions `moveSnake`, `checkCollision`, `generateFood`,
`advancePhase`, `resetGame` and `handleKeyPress` are closures over the state of
the render that created them; here each of them takes that state as an
explicit argument and returns the state after the queued `setX` updates have
been applied.

`Math.random()` is modelled by an explicit list of draws that the generators
consume from the front; a generator whose rejection loop needs more draws than
the list holds yields `none`.
-/

namespace Snake

/-! ## Constants (App.js lines 4-10) -/

def GRID_SIZE : Int := 20
def NUM_PHASES : Int := 15
def SPECIAL_FOOD_SCORE : Int := 5

/-! ## Data -/

/-- A grid cell `{ x, y }`. -/
structure Cell where
  x : Int
  y : Int
deriving DecidableEq, Repr

/-- The values of `DIRECTIONS`. -/
inductive Direction where
  | UP | DOWN | LEFT | RIGHT
deriving DecidableEq, Repr

/-- The two strings returned by `getFoodType`. -/
inductive FoodType where
  | special | normal
deriving DecidableEq, Repr

/-- The food object `{ x, y, type }`. -/
structure Food where
  x : Int
  y : Int
  type : FoodType
deriving DecidableEq, Repr

/-- One value returned by `Math.random()`: a number `r` with `0 ≤ r < 1`, kept as
the fraction `num / den`.  Products and comparisons with a draw are taken
exactly. -/
structure Draw where
  num : Nat
  den : Nat
  lt : num < den
deriving DecidableEq

/-- The state cells of `App` (lines 59-67) and the `speed` ref (line 70). -/
structure State where
  snake : List Cell
  food : Food
  direction : Direction
  nextDirection : Direction
  gameOver : Bool
  score : Int
  phase : Int
  barriers : List Cell
  highScore : Int
  speed : Int
deriving DecidableEq

/-! ## Random helpers -/

/-- The expression `Math.floor(Math.random() * GRID_SIZE)` for the draw `d`. -/
def randCoord (d : Draw) : Int := ((d.num * GRID_SIZE.toNat / d.den : Nat) : Int)

/-- The function `getFoodType` (lines 54-56): `Math.random() < 0.1 ? 'special' : 'normal'`. -/
def getFoodType (d : Draw) : FoodType :=
  if d.num * 10 < d.den then FoodType.special else FoodType.normal

/-- The callback `c => c.x === x && c.y === y` handed to `some`. -/
def sameCell (x y : Int) (c : Cell) : Bool := c.x == x && c.y == y

/-! ## Barrier generation (lines 17-31) -/

/-- The `do ... while` loop of `getBarrierPositions`: draw `x` and `y` until the
cell is none of the barriers chosen so far. -/
def drawBarrier (barriers : List Cell) : List Draw → Option (Cell × List Draw)
  | dx :: dy :: rest =>
    let x := randCoord dx
    let y := randCoord dy
    if barriers.any (sameCell x y) then drawBarrier barriers rest
    else some ({ x := x, y := y }, rest)
  | _ => none

/-- The `for` loop of `getBarrierPositions`, with `n` iterations still to run. -/
def barrierLoop : Nat → List Cell → List Draw → Option (List Cell × List Draw)
  | 0, barriers, ds => some (barriers, ds)
  | n + 1, barriers, ds =>
    match drawBarrier barriers ds with
    | none => none
    | some (c, rest) => barrierLoop n (barriers ++ [c]) rest

/-- The function `getBarrierPositions`. -/
def getBarrierPositions (phase : Int) (ds : List Draw) : Option (List Cell × List Draw) :=
  let barrierCounts := min (phase + 1) 10
  barrierLoop barrierCounts.toNat [] ds

/-! ## The tick (lines 104-184) -/

/-- The function `checkCollision` (lines 156-165). -/
def checkCollision (s : State) (head : Cell) : Bool :=
  decide (head.x < 0) ||
  decide (head.x ≥ GRID_SIZE) ||
  decide (head.y < 0) ||
  decide (head.y ≥ GRID_SIZE) ||
  s.snake.any (sameCell head.x head.y) ||
  s.barriers.any (sameCell head.x head.y)

/-- The function `generateFood` (lines 167-177): draw `x`, `y` and the type until the
cell is no segment of `snake` and no cell of `barriers`, both as the closure
sees them. -/
def generateFood (s : State) : List Draw → Option (Food × List Draw)
  | dx :: dy :: dt :: rest =>
    let newFood : Food := { x := randCoord dx, y := randCoord dy, type := getFoodType dt }
    if s.snake.any (sameCell newFood.x newFood.y) || s.barriers.any (sameCell newFood.x newFood.y)
    then generateFood s rest
    else some (newFood, rest)
  | _ => none

/-- The function `advancePhase` (lines 179-184), as the new `(phase, barriers)`. -/
def advancePhase (s : State) (ds : List Draw) : Option ((Int × List Cell) × List Draw) :=
  if s.phase < NUM_PHASES - 1 then
    match getBarrierPositions (s.phase + 1) ds with
    | none => none
    | some (bs, rest) => some ((s.phase + 1, bs), rest)
  else some ((s.phase, s.barriers), ds)

/-- The `switch` of `moveSnake` (lines 109-124) applied to a copy of the head. -/
def moveHead (newDirection : Direction) (head : Cell) : Cell :=
  match newDirection with
  | Direction.UP => { head with y := head.y - 1 }
  | Direction.DOWN => { head with y := head.y + 1 }
  | Direction.LEFT => { head with x := head.x - 1 }
  | Direction.RIGHT => { head with x := head.x + 1 }

/-- The function `moveSnake` (lines 104-154).  `none` when `snake[0]` is absent or
the draws run out. -/
def moveSnake (s : State) (ds : List Draw) : Option (State × List Draw) :=
  let newDirection := s.nextDirection
  match s.snake with
  | [] => none
  | h :: _ =>
    let head := moveHead newDirection h
    if checkCollision s head then
      some ({ s with
                gameOver := true
                highScore := if s.score > s.highScore then s.score else s.highScore }, ds)
    else
      let newSnake := head :: s.snake.dropLast
      if head.x = s.food.x ∧ head.y = s.food.y then
        let newSnake := newSnake ++ [newSnake.getLast (List.cons_ne_nil _ _)]
        match generateFood s ds with
        | none => none
        | some (newFood, ds1) =>
          let newScore := s.score + (if s.food.type = FoodType.special then SPECIAL_FOOD_SCORE else 1)
          let phased : Option ((Int × List Cell) × List Draw) :=
            if s.score + 1 ≥ (s.phase + 1) * 5 then advancePhase s ds1
            else some ((s.phase, s.barriers), ds1)
          match phased with
          | none => none
          | some ((newPhase, newBarriers), ds2) =>
            let newSpeed := if s.score % 5 = 0 then max 50 (s.speed - 5) else s.speed
            some ({ s with
                      snake := newSnake
                      food := newFood
                      score := newScore
                      phase := newPhase
                      barriers := newBarriers
                      speed := newSpeed
                      direction := newDirection }, ds2)
      else
        some ({ s with snake := newSnake, direction := newDirection }, ds)

/-! ## Key presses, restart and the initial render -/

/-- The values of `e.key` that `handleKeyPress` tells apart. -/
inductive Key where
  | ArrowUp | ArrowDown | ArrowLeft | ArrowRight | other
deriving DecidableEq, Repr

/-- The function `handleKeyPress` (lines 75-92). -/
def handleKeyPress (s : State) (key : Key) : State :=
  match key with
  | Key.ArrowUp =>
    if s.direction ≠ Direction.DOWN then { s with nextDirection := Direction.UP } else s
  | Key.ArrowDown =>
    if s.direction ≠ Direction.UP then { s with nextDirection := Direction.DOWN } else s
  | Key.ArrowLeft =>
    if s.direction ≠ Direction.RIGHT then { s with nextDirection := Direction.LEFT } else s
  | Key.ArrowRight =>
    if s.direction ≠ Direction.LEFT then { s with nextDirection := Direction.RIGHT } else s
  | Key.other => s

def INITIAL_SNAKE : List Cell := [{ x := 5, y := 5 }]
def INITIAL_FOOD : Cell := { x := 10, y := 10 }

/-- The function `resetGame` (lines 186-196): one draw for the food type, then the
draws of `getBarrierPositions(0)`. -/
def resetGame (s : State) (ds : List Draw) : Option (State × List Draw) :=
  match ds with
  | [] => none
  | dt :: ds1 =>
    match getBarrierPositions 0 ds1 with
    | none => none
    | some (bs, ds2) =>
      some ({ s with
                snake := INITIAL_SNAKE
                food := { x := INITIAL_FOOD.x, y := INITIAL_FOOD.y, type := getFoodType dt }
                direction := Direction.RIGHT
                nextDirection := Direction.RIGHT
                gameOver := false
                score := 0
                phase := 0
                barriers := bs
                speed := 150 }, ds2)

/-- The state of the first render (lines 59-70); `stored` is the value of
`parseInt(localStorage.getItem('highScore')) || 0`. -/
def initialState (stored : Int) (ds : List Draw) : Option (State × List Draw) :=
  match ds with
  | [] => none
  | dt :: ds1 =>
    match getBarrierPositions 0 ds1 with
    | none => none
    | some (bs, ds2) =>
      some ({ snake := INITIAL_SNAKE
              food := { x := INITIAL_FOOD.x, y := INITIAL_FOOD.y, type := getFoodType dt }
              direction := Direction.RIGHT
              nextDirection := Direction.RIGHT
              gameOver := false
              score := 0
              phase := 0
              barriers := bs
              highScore := stored
              speed := 150 }, ds2)

/-! ## The mounted component

The effect of lines 72-102 has the dependency list `[snake, direction, gameOver]`.
When it runs with `gameOver` false it installs the key listener and an interval that
calls the `moveSnake` of that render; with `gameOver` true it installs nothing.  A key
press changes only `nextDirection`, so the effect does not run again and the interval
keeps calling a `moveSnake` whose `nextDirection` is the one of the render in which
the effect last ran.  Every other value that `moveSnake` reads changes only together
with `snake` or `gameOver`, so it is the current one.  The Restart button is rendered
only while `gameOver` is true (lines 236-241). -/

/-- The latest state together with the `nextDirection` seen by the interval callback. -/
structure Game where
  state : State
  tickNextDirection : Direction
deriving DecidableEq

/-- What can happen to the mounted component. -/
inductive Event where
  | keydown (key : Key)
  | interval
  | restartClick
deriving DecidableEq, Repr

/-- One interval callback: `moveSnake` of the render in which the effect last ran,
followed by the re-run of the effect. -/
def tick (g : Game) (ds : List Draw) : Option (Game × List Draw) :=
  if g.state.gameOver then some (g, ds)
  else
    match moveSnake { g.state with nextDirection := g.tickNextDirection } ds with
    | none => none
    | some (s1, rest) =>
      some ({ state := { s1 with nextDirection := g.state.nextDirection }
              tickNextDirection := g.state.nextDirection }, rest)

/-- One event of the mounted component. -/
def step (g : Game) (e : Event) (ds : List Draw) : Option (Game × List Draw) :=
  match e with
  | Event.keydown key =>
    if g.state.gameOver then some (g, ds)
    else some ({ g with state := handleKeyPress g.state key }, ds)
  | Event.interval => tick g ds
  | Event.restartClick =>
    if g.state.gameOver then
      match resetGame g.state ds with
      | none => none
      | some (s1, rest) => some ({ state := s1, tickNextDirection := s1.nextDirection }, rest)
    else some (g, ds)

/-- The component after its first render. -/
def mount (stored : Int) (ds : List Draw) : Option (Game × List Draw) :=
  match initialState stored ds with
  | none => none
  | some (s, rest) => some ({ state := s, tickNextDirection := s.nextDirection }, rest)

/-- The states the mounted component can be in: every event may meet any draws. -/
inductive Reachable : Game → Prop where
  | mount (stored : Int) (ds rest : List Draw) (g : Game) :
      Snake.mount stored ds = some (g, rest) → Reachable g
  | step (g g1 : Game) (e : Event) (ds rest : List Draw) :
      Reachable g → Snake.step g e ds = some (g1, rest) → Reachable g1

/-- Runs a list of events, each with its own draws. -/
def run (g : Game) : List (Event × List Draw) → Option Game
  | [] => some g
  | (e, ds) :: es =>
    match step g e ds with
    | none => none
    | some (g1, _) => run g1 es

/-! ## Auxiliary definitions for the statements -/

/-- A draw whose `Math.floor(r * 20)` is `n`. -/
def coordDraw (n : Nat) (h : n < 20) : Draw := { num := n, den := 20, lt := h }

/-- The state that `moveSnake` leaves after a collision. -/
def collided (s : State) : State :=
  { s with gameOver := true, highScore := if s.score > s.highScore then s.score else s.highScore }

/-- The state after a tick that eats the food, given the new food and the new
phase and barriers. -/
def fed (s : State) (head : Cell) (newFood : Food) (newPhase : Int) (newBarriers : List Cell) :
    State :=
  { s with
      snake := (head :: s.snake.dropLast) ++
        [(head :: s.snake.dropLast).getLast (List.cons_ne_nil _ _)]
      food := newFood
      score := s.score + (if s.food.type = FoodType.special then SPECIAL_FOOD_SCORE else 1)
      phase := newPhase
      barriers := newBarriers
      speed := if s.score % 5 = 0 then max 50 (s.speed - 5) else s.speed
      direction := s.nextDirection }

/-- Twenty draws that give the ten cells (0,0), (1,0), ..., (9,0). -/
def rowDraws : List Draw :=
  [coordDraw 0 (by decide), coordDraw 0 (by decide), coordDraw 1 (by decide), coordDraw 0 (by decide),
   coordDraw 2 (by decide), coordDraw 0 (by decide), coordDraw 3 (by decide), coordDraw 0 (by decide),
   coordDraw 4 (by decide), coordDraw 0 (by decide), coordDraw 5 (by decide), coordDraw 0 (by decide),
   coordDraw 6 (by decide), coordDraw 0 (by decide), coordDraw 7 (by decide), coordDraw 0 (by decide),
   coordDraw 8 (by decide), coordDraw 0 (by decide), coordDraw 9 (by decide), coordDraw 0 (by decide)]

/-- A synthetic state for the self-collision example: the cell right of the head is segment 2. -/
def exSelfHit : State :=
  { snake := [{ x := 5, y := 5 }, { x := 5, y := 6 }, { x := 6, y := 5 }]
    food := { x := 10, y := 10, type := FoodType.normal }
    direction := Direction.UP
    nextDirection := Direction.RIGHT
    gameOver := false
    score := 7
    phase := 1
    barriers := [{ x := 0, y := 0 }, { x := 1, y := 0 }]
    highScore := 3
    speed := 145 }

/-- The state of the end-to-end example: snake [(5,5)], heading RIGHT, food at (10,10). -/
def exStart : State :=
  { snake := [{ x := 5, y := 5 }]
    food := { x := 10, y := 10, type := FoodType.normal }
    direction := Direction.RIGHT
    nextDirection := Direction.RIGHT
    gameOver := false
    score := 0
    phase := 0
    barriers := [{ x := 0, y := 0 }]
    highScore := 0
    speed := 150 }

/-- A state one step left of a SPECIAL food, with score 0 and phase 0. -/
def exSpecial : State :=
  { snake := [{ x := 9, y := 10 }]
    food := { x := 10, y := 10, type := FoodType.special }
    direction := Direction.RIGHT
    nextDirection := Direction.RIGHT
    gameOver := false
    score := 0
    phase := 0
    barriers := [{ x := 0, y := 0 }]
    highScore := 0
    speed := 150 }

/-- Draws for one accepted food sample: cell (3,4), kind draw 1/2. -/
def foodDraws : List Draw :=
  [coordDraw 3 (by decide), coordDraw 4 (by decide), coordDraw 10 (by decide)]

/-- A state one step left of a NORMAL food, with score 0 and phase 0. -/
def exNormal : State := { exSpecial with food := { x := 10, y := 10, type := FoodType.normal } }

/-- Key presses and ticks that take the fresh game from (5,5) to (9,10) heading RIGHT:
ArrowDown, one tick still to the right, four ticks down, ArrowRight, one tick still
down, three ticks to the right. -/
def pathEvents : List (Event × List Draw) :=
  [(Event.keydown Key.ArrowDown, []), (Event.interval, []),
   (Event.interval, []), (Event.interval, []), (Event.interval, []), (Event.interval, []),
   (Event.keydown Key.ArrowRight, []), (Event.interval, []),
   (Event.interval, []), (Event.interval, []), (Event.interval, [])]

/-- Draws for a rejected sample (0,0) followed by the accepted sample (3,4) with kind draw 1/2. -/
def retryFoodDraws : List Draw :=
  [coordDraw 0 (by decide), coordDraw 0 (by decide), coordDraw 0 (by decide),
   coordDraw 3 (by decide), coordDraw 4 (by decide), coordDraw 10 (by decide)]

/-- Draws for the barrier samples (0,0), (0,0) again, and (1,0). -/
def retryBarrierDraws : List Draw :=
  [coordDraw 0 (by decide), coordDraw 0 (by decide), coordDraw 0 (by decide),
   coordDraw 0 (by decide), coordDraw 1 (by decide), coordDraw 0 (by decide)]

/-- The state after a tick that neither collides nor eats. -/
def moved (s : State) (head : Cell) : State :=
  { s with snake := head :: s.snake.dropLast, direction := s.nextDirection }

/-- A state at the last phase, one step left of a NORMAL food, with score 70. -/
def exCap : State :=
  { snake := [{ x := 9, y := 10 }, { x := 8, y := 10 }]
    food := { x := 10, y := 10, type := FoodType.normal }
    direction := Direction.RIGHT
    nextDirection := Direction.RIGHT
    gameOver := false
    score := 70
    phase := 14
    barriers := [{ x := 0, y := 0 }]
    highScore := 0
    speed := 100 }

/-- The game right after a first render whose barrier sample is (10,10). -/
def exBarrierAtStart : Game :=
  { state := { exStart with barriers := [{ x := 10, y := 10 }] }
    tickNextDirection := Direction.RIGHT }

/-- The game after the tick of `exNormal` whose replacement food sample is (10,10). -/
def exFoodOnHead : Game :=
  { state := { exNormal with
                 snake := [{ x := 10, y := 10 }, { x := 10, y := 10 }]
                 food := { x := 10, y := 10, type := FoodType.normal }
                 score := 1
                 speed := 145 }
    tickNextDirection := Direction.RIGHT }

/-- The game after two food-consuming ticks from `exSpecial`: the first puts the new food at
(11,10), the second eats it, puts the new food at (3,4) and advances to phase 1 with the
barrier samples (3,4) and (11,10). -/
def exBarrierOnFood : Game :=
  { state := { exSpecial with
                 snake := [{ x := 11, y := 10 }, { x := 10, y := 10 }, { x := 10, y := 10 }]
                 food := { x := 3, y := 4, type := FoodType.normal }
                 score := 6
                 phase := 1
                 barriers := [{ x := 3, y := 4 }, { x := 11, y := 10 }]
                 speed := 140 }
    tickNextDirection := Direction.RIGHT }

/-- A state in the middle of a game, over and about to be restarted. -/
def exOver : State :=
  { snake := [{ x := 19, y := 5 }, { x := 18, y := 5 }]
    food := { x := 3, y := 4, type := FoodType.special }
    direction := Direction.RIGHT
    nextDirection := Direction.UP
    gameOver := true
    score := 12
    phase := 2
    barriers := [{ x := 0, y := 0 }, { x := 1, y := 0 }, { x := 2, y := 0 }]
    highScore := 12
    speed := 135 }

/-- Draws for a restart: kind draw 1/2, barrier sample (7,8). -/
def restartDraws : List Draw :=
  [coordDraw 10 (by decide), coordDraw 7 (by decide), coordDraw 8 (by decide)]

/-- The game right after a first render with NORMAL food and the barrier sample (0,0). -/
def exFresh : Game := { state := exStart, tickNextDirection := Direction.RIGHT }

/-- ArrowUp, a tick, ArrowDown, a tick. -/
def reverseEvents : List (Event × List Draw) :=
  [(Event.keydown Key.ArrowUp, []), (Event.interval, []),
   (Event.keydown Key.ArrowDown, []), (Event.interval, [])]

/-- The game after `reverseEvents` from `exFresh`: the first tick still went right to (6,5),
the second went up to (6,4), and ArrowDown is pending. -/
def exReversed : Game :=
  { state := { exStart with
                 snake := [{ x := 6, y := 4 }]
                 direction := Direction.UP
                 nextDirection := Direction.DOWN }
    tickNextDirection := Direction.DOWN }

/-- The game at `exOver`, over and waiting for Restart. -/
def exOverGame : Game := { state := exOver, tickNextDirection := Direction.UP }

/-- The game after the tick of `exSpecial` with `foodDraws`: score 5, still phase 0. -/
def exLag : Game :=
  { state := { exSpecial with
                 snake := [{ x := 10, y := 10 }, { x := 10, y := 10 }]
                 food := { x := 3, y := 4, type := FoodType.normal }
                 score := 5
                 speed := 145 }
    tickNextDirection := Direction.RIGHT }

/-- The game right after a first render whose barrier sample is (5,5), the snake's cell. -/
def exBarrierOnSnake : Game :=
  { state := { exStart with barriers := [{ x := 5, y := 5 }] }
    tickNextDirection := Direction.RIGHT }

/-- Fifteen ticks to the right, the last of which hits the wall, and then a Restart click
whose barrier sample is (10,10). -/
def wallThenRestart : List (Event × List Draw) :=
  List.replicate 15 (Event.interval, []) ++
    [(Event.restartClick,
      [coordDraw 10 (by decide), coordDraw 10 (by decide), coordDraw 10 (by decide)])]

/-- A state with score 5 at phase 0, one step left of a NORMAL food. -/
def exFive : State :=
  { snake := [{ x := 10, y := 10 }, { x := 10, y := 10 }]
    food := { x := 11, y := 10, type := FoodType.normal }
    direction := Direction.RIGHT
    nextDirection := Direction.RIGHT
    gameOver := false
    score := 5
    phase := 0
    barriers := [{ x := 0, y := 0 }]
    highScore := 0
    speed := 145 }

/-- Draws for the food sample (3,4) with kind draw 1/2 and the barrier samples (3,4), (11,10). -/
def advanceDraws : List Draw :=
  [coordDraw 3 (by decide), coordDraw 4 (by decide), coordDraw 10 (by decide),
   coordDraw 3 (by decide), coordDraw 4 (by decide),
   coordDraw 11 (by decide), coordDraw 10 (by decide)]

/-! ## Basic facts -/

theorem any_sameCell_iff (l : List Cell) (x y : Int) :
    l.any (sameCell x y) = true ↔ ({ x := x, y := y } : Cell) ∈ l := by
  induction l with
  | nil => simp
  | cons c l ih =>
    rw [List.any_cons, Bool.or_eq_true, ih, List.mem_cons]
    apply or_congr_left
    cases c with
    | mk cx cy =>
      simp only [sameCell, Bool.and_eq_true, beq_iff_eq, Cell.mk.injEq]
      constructor
      · rintro ⟨h1, h2⟩; exact ⟨h1.symm, h2.symm⟩
      · rintro ⟨h1, h2⟩; exact ⟨h1.symm, h2.symm⟩

theorem randCoord_coordDraw (n : Nat) (h : n < 20) : randCoord (coordDraw n h) = (n : Int) := by
  simp [randCoord, coordDraw, GRID_SIZE]

theorem randCoord_nonneg (d : Draw) : 0 ≤ randCoord d := by
  unfold randCoord
  exact Int.ofNat_nonneg _

theorem randCoord_lt (d : Draw) : randCoord d < 20 := by
  have h := d.lt
  have : d.num * 20 / d.den < 20 := by
    apply Nat.div_lt_of_lt_mul
    omega
  simp only [randCoord, GRID_SIZE]
  exact_mod_cast this

theorem generateFood_accept (s : State) (dx dy dt : Draw) (rest : List Draw)
    (h1 : ({ x := randCoord dx, y := randCoord dy } : Cell) ∉ s.snake)
    (h2 : ({ x := randCoord dx, y := randCoord dy } : Cell) ∉ s.barriers) :
    generateFood s (dx :: dy :: dt :: rest) =
      some ({ x := randCoord dx, y := randCoord dy, type := getFoodType dt }, rest) := by
  have e1 : s.snake.any (sameCell (randCoord dx) (randCoord dy)) = false := by
    rw [← Bool.not_eq_true, any_sameCell_iff]; exact h1
  have e2 : s.barriers.any (sameCell (randCoord dx) (randCoord dy)) = false := by
    rw [← Bool.not_eq_true, any_sameCell_iff]; exact h2
  simp [generateFood, e1, e2]

theorem checkCollision_iff (s : State) (head : Cell) :
    checkCollision s head = true ↔
      (head.x < 0 ∨ head.x ≥ 20 ∨ head.y < 0 ∨ head.y ≥ 20 ∨ head ∈ s.snake ∨ head ∈ s.barriers) := by
  cases head with
  | mk hx hy =>
    simp only [checkCollision, Bool.or_eq_true, decide_eq_true_eq, any_sameCell_iff, GRID_SIZE]
    tauto

theorem moveSnake_collision (s : State) (ds : List Draw) (h : Cell) (t : List Cell)
    (hs : s.snake = h :: t) (hc : checkCollision s (moveHead s.nextDirection h) = true) :
    moveSnake s ds = some (collided s, ds) := by
  unfold moveSnake
  split
  · next he => rw [hs] at he; cases he
  · next h1 t1 he =>
    rw [hs] at he
    cases he
    simp only [hc, if_true, collided]

theorem moveSnake_plain (s : State) (ds : List Draw) (h : Cell) (t : List Cell)
    (hs : s.snake = h :: t) (hc : checkCollision s (moveHead s.nextDirection h) = false)
    (hf : ¬ ((moveHead s.nextDirection h).x = s.food.x ∧ (moveHead s.nextDirection h).y = s.food.y)) :
    moveSnake s ds =
      some ({ s with snake := moveHead s.nextDirection h :: s.snake.dropLast,
                     direction := s.nextDirection }, ds) := by
  unfold moveSnake
  split
  · next he => rw [hs] at he; cases he
  · next h1 t1 he =>
    rw [hs] at he
    cases he
    simp only [hc, hf, if_false, Bool.false_eq_true]

theorem moveSnake_food (s : State) (ds : List Draw) (h : Cell) (t : List Cell)
    (hs : s.snake = h :: t) (hc : checkCollision s (moveHead s.nextDirection h) = false)
    (hf : (moveHead s.nextDirection h).x = s.food.x ∧ (moveHead s.nextDirection h).y = s.food.y)
    (s1 : State) (rest : List Draw) (hr : moveSnake s ds = some (s1, rest)) :
    ∃ newFood ds1 newPhase newBarriers,
      generateFood s ds = some (newFood, ds1) ∧
      (if s.score + 1 ≥ (s.phase + 1) * 5 then advancePhase s ds1
        else some ((s.phase, s.barriers), ds1)) = some ((newPhase, newBarriers), rest) ∧
      s1 = fed s (moveHead s.nextDirection h) newFood newPhase newBarriers := by
  unfold moveSnake at hr
  split at hr
  · next he => rw [hs] at he; cases he
  · next h1 t1 he =>
    rw [hs] at he
    cases he
    simp only [hc, hf, if_false, Bool.false_eq_true, and_self, if_true] at hr
    split at hr
    · cases hr
    · next newFood ds1 hg =>
      split at hr
      · cases hr
      · next newPhase newBarriers ds2 hp =>
        simp only [Option.some.injEq, Prod.mk.injEq] at hr
        obtain ⟨h1, h2⟩ := hr
        subst h2
        exact ⟨newFood, ds1, newPhase, newBarriers, hg, hp, h1.symm⟩

theorem barrierLoop_rowDraws (n : Nat) (hn : n ≤ 10) :
    (barrierLoop n [] rowDraws).isSome = true := by
  interval_cases n <;> decide

theorem getBarrierPositions_rowDraws (phase : Int) :
    (getBarrierPositions phase rowDraws).isSome = true := by
  unfold getBarrierPositions
  apply barrierLoop_rowDraws
  omega

theorem advancePhase_rowDraws (s : State) : (advancePhase s rowDraws).isSome = true := by
  unfold advancePhase
  split
  · have h := getBarrierPositions_rowDraws (s.phase + 1)
    split
    · next he => rw [he] at h; cases h
    · rfl
  · rfl

theorem moveSnake_food_eq (s : State) (ds : List Draw) (h : Cell) (t : List Cell)
    (hs : s.snake = h :: t) (hc : checkCollision s (moveHead s.nextDirection h) = false)
    (hf : (moveHead s.nextDirection h).x = s.food.x ∧ (moveHead s.nextDirection h).y = s.food.y)
    (newFood : Food) (ds1 rest : List Draw) (newPhase : Int) (newBarriers : List Cell)
    (hg : generateFood s ds = some (newFood, ds1))
    (hp : (if s.score + 1 ≥ (s.phase + 1) * 5 then advancePhase s ds1
        else some ((s.phase, s.barriers), ds1)) = some ((newPhase, newBarriers), rest)) :
    moveSnake s ds = some (fed s (moveHead s.nextDirection h) newFood newPhase newBarriers, rest) := by
  unfold moveSnake
  split
  · next he => rw [hs] at he; cases he
  · next h1 t1 he =>
    rw [hs] at he
    cases he
    simp only [hc, hf, if_false, Bool.false_eq_true, and_self, if_true, hg, hp, fed]

/-- Every state with a non-empty snake has draws on which `moveSnake` returns. -/
theorem moveSnake_returns (s : State) (hne : s.snake ≠ []) :
    ∃ ds s1 rest, moveSnake s ds = some (s1, rest) := by
  obtain ⟨h, t, hs⟩ := List.exists_cons_of_ne_nil hne
  by_cases hc : checkCollision s (moveHead s.nextDirection h) = true
  · exact ⟨[], _, _, moveSnake_collision s [] h t hs hc⟩
  · rw [Bool.not_eq_true] at hc
    by_cases hf : (moveHead s.nextDirection h).x = s.food.x ∧ (moveHead s.nextDirection h).y = s.food.y
    · have hn : ¬ (checkCollision s (moveHead s.nextDirection h) = true) := by simp [hc]
      rw [checkCollision_iff] at hn
      simp only [not_or, not_lt, ge_iff_le, not_le] at hn
      obtain ⟨hx0, hx1, hy0, hy1, hsn, hba⟩ := hn
      obtain ⟨c, hcd⟩ : ∃ c, c = moveHead s.nextDirection h := ⟨_, rfl⟩
      rw [← hcd] at hx0 hx1 hy0 hy1 hsn hba
      have hx : c.x.toNat < 20 := by omega
      have hy : c.y.toNat < 20 := by omega
      have ex : randCoord (coordDraw c.x.toNat hx) = c.x := by
        rw [randCoord_coordDraw]; omega
      have ey : randCoord (coordDraw c.y.toNat hy) = c.y := by
        rw [randCoord_coordDraw]; omega
      have hg := generateFood_accept s (coordDraw c.x.toNat hx) (coordDraw c.y.toNat hy)
        (coordDraw 0 (by decide)) rowDraws (by rw [ex, ey]; exact hsn) (by rw [ex, ey]; exact hba)
      have hp : ∃ p b rest, (if s.score + 1 ≥ (s.phase + 1) * 5 then advancePhase s rowDraws
          else some ((s.phase, s.barriers), rowDraws)) = some ((p, b), rest) := by
        split
        · have ha := advancePhase_rowDraws s
          cases hq : advancePhase s rowDraws with
          | none => rw [hq] at ha; cases ha
          | some r => exact ⟨r.1.1, r.1.2, r.2, rfl⟩
        · exact ⟨_, _, _, rfl⟩
      obtain ⟨p, b, rest, hp⟩ := hp
      exact ⟨_, _, _, moveSnake_food_eq s _ h t hs hc hf _ _ _ _ _ hg hp⟩
    · exact ⟨[], _, _, moveSnake_plain s [] h t hs hc hf⟩

theorem food_cell_iff (c : Cell) (f : Food) :
    (c.x = f.x ∧ c.y = f.y) ↔ c = { x := f.x, y := f.y } := by
  cases c
  simp

/-- C1: with the game running, one tick sets gameOver exactly when the new head (old head
plus the unit vector of the pending direction) is out of bounds, or is a segment of the
snake (the last one included), or is a barrier cell; otherwise the tick returns on suitable
draws, and whenever it returns gameOver is still false and the snake starts with the new
head. -/
theorem C1_gameOver_iff_collision (s : State) (ds : List Draw) (h : Cell) (t : List Cell)
    (c : Cell) (hs : s.snake = h :: t) (hg : s.gameOver = false)
    (hd : c = (match s.nextDirection with
      | Direction.UP => { x := h.x, y := h.y - 1 }
      | Direction.DOWN => { x := h.x, y := h.y + 1 }
      | Direction.LEFT => { x := h.x - 1, y := h.y }
      | Direction.RIGHT => { x := h.x + 1, y := h.y })) :
    ((c.x < 0 ∨ c.x ≥ 20 ∨ c.y < 0 ∨ c.y ≥ 20 ∨ c ∈ s.snake ∨ c ∈ s.barriers) →
      ∃ s1, moveSnake s ds = some (s1, ds) ∧ s1.gameOver = true) ∧
    (¬ (c.x < 0 ∨ c.x ≥ 20 ∨ c.y < 0 ∨ c.y ≥ 20 ∨ c ∈ s.snake ∨ c ∈ s.barriers) →
      (∃ ds0 s1 rest, moveSnake s ds0 = some (s1, rest)) ∧
      ∀ s1 rest, moveSnake s ds = some (s1, rest) →
        s1.gameOver = false ∧ s1.snake.head? = some c) := by
  have hd1 : c = moveHead s.nextDirection h := by
    rw [hd]; cases s.nextDirection <;> rfl
  clear hd
  subst hd1
  rw [← checkCollision_iff]
  refine ⟨fun hc => ⟨_, moveSnake_collision s ds h t hs hc, rfl⟩, fun hc => ⟨?_, ?_⟩⟩
  · exact moveSnake_returns s (by rw [hs]; exact List.cons_ne_nil _ _)
  · intro s1 rest hr
    rw [Bool.not_eq_true] at hc
    by_cases hf : (moveHead s.nextDirection h).x = s.food.x ∧ (moveHead s.nextDirection h).y = s.food.y
    · obtain ⟨newFood, ds1, newPhase, newBarriers, -, -, rfl⟩ := moveSnake_food s ds h t hs hc hf s1 rest hr
      exact ⟨hg, rfl⟩
    · rw [moveSnake_plain s ds h t hs hc hf] at hr
      cases hr
      exact ⟨hg, rfl⟩

/-- Witness of C1: in `exSelfHit` the new head (6,5) is segment 2 and the tick ends the game. -/
theorem C1_gameOver_iff_collision_witness :
    exSelfHit.snake = { x := 5, y := 5 } :: [{ x := 5, y := 6 }, { x := 6, y := 5 }] ∧
    exSelfHit.gameOver = false ∧
    ∃ s1, moveSnake exSelfHit [] = some (s1, []) ∧ s1.gameOver = true :=
  ⟨rfl, rfl,
    (C1_gameOver_iff_collision exSelfHit [] { x := 5, y := 5 } [{ x := 5, y := 6 }, { x := 6, y := 5 }]
      { x := 6, y := 5 } rfl rfl rfl).1 (by decide)⟩

/-- C2: a tick whose new head collides returns on any draws, consumes none of them, sets
gameOver to true and highScore to the maximum of score and the old highScore, and leaves
snake, food, direction, pending direction, phase, barriers, score and tick interval as
they were. -/
theorem C2_collision_frame (s : State) (ds : List Draw) (h : Cell) (t : List Cell)
    (c : Cell) (hs : s.snake = h :: t)
    (hd : c = (match s.nextDirection with
      | Direction.UP => { x := h.x, y := h.y - 1 }
      | Direction.DOWN => { x := h.x, y := h.y + 1 }
      | Direction.LEFT => { x := h.x - 1, y := h.y }
      | Direction.RIGHT => { x := h.x + 1, y := h.y }))
    (hit : c.x < 0 ∨ c.x ≥ 20 ∨ c.y < 0 ∨ c.y ≥ 20 ∨ c ∈ s.snake ∨ c ∈ s.barriers) :
    ∃ s1, moveSnake s ds = some (s1, ds) ∧
      s1.gameOver = true ∧ s1.highScore = max s.score s.highScore ∧
      s1.snake = s.snake ∧ s1.food = s.food ∧ s1.direction = s.direction ∧
      s1.nextDirection = s.nextDirection ∧ s1.phase = s.phase ∧ s1.barriers = s.barriers ∧
      s1.score = s.score ∧ s1.speed = s.speed := by
  have hd1 : c = moveHead s.nextDirection h := by
    rw [hd]; cases s.nextDirection <;> rfl
  clear hd
  subst hd1
  rw [← checkCollision_iff] at hit
  refine ⟨_, moveSnake_collision s ds h t hs hit, rfl, ?_, rfl, rfl, rfl, rfl, rfl, rfl, rfl, rfl⟩
  simp only [collided]
  split
  · next hlt => exact (max_eq_left (le_of_lt hlt)).symm
  · next hge => exact (max_eq_right (not_lt.mp hge)).symm

/-- Witness of C2: the colliding tick of `exSelfHit` (score 7, highScore 3, direction UP,
pending RIGHT) gives highScore 7 and keeps direction UP. -/
theorem C2_collision_frame_witness :
    ∃ s1, moveSnake exSelfHit [] = some (s1, []) ∧
      s1.gameOver = true ∧ s1.highScore = 7 ∧ s1.direction = Direction.UP ∧
      s1.snake = exSelfHit.snake := by
  obtain ⟨s1, h1, h2, h3, h4, _, h5, _⟩ :=
    C2_collision_frame exSelfHit [] { x := 5, y := 5 } [{ x := 5, y := 6 }, { x := 6, y := 5 }]
      { x := 6, y := 5 } rfl rfl (by decide)
  exact ⟨s1, h1, h2, h3, h5, h4⟩

/-- C3: a tick whose new head does not collide returns on suitable draws, and whenever it
returns the new snake starts with the old head
moved one cell in the pending direction (UP: y-1, DOWN: y+1, LEFT: x-1, RIGHT: x+1) and the
current direction becomes the pending one; if the new head is not the food cell the new
snake is the new head followed by the old snake without its last segment, of the same
length, and if it is the food cell the new length is the old length plus 1. -/
theorem C3_movement (s : State) (ds : List Draw) (h : Cell) (t : List Cell)
    (c : Cell) (hs : s.snake = h :: t)
    (hd : c = (match s.nextDirection with
      | Direction.UP => { x := h.x, y := h.y - 1 }
      | Direction.DOWN => { x := h.x, y := h.y + 1 }
      | Direction.LEFT => { x := h.x - 1, y := h.y }
      | Direction.RIGHT => { x := h.x + 1, y := h.y }))
    (hfree : ¬ (c.x < 0 ∨ c.x ≥ 20 ∨ c.y < 0 ∨ c.y ≥ 20 ∨ c ∈ s.snake ∨ c ∈ s.barriers)) :
    (∃ ds0 s1 rest, moveSnake s ds0 = some (s1, rest)) ∧
    ∀ s1 rest, moveSnake s ds = some (s1, rest) →
      s1.snake.head? = some c ∧ s1.direction = s.nextDirection ∧ s1.gameOver = s.gameOver ∧
      (c ≠ { x := s.food.x, y := s.food.y } →
        s1.snake = c :: s.snake.dropLast ∧ s1.snake.length = s.snake.length) ∧
      (c = { x := s.food.x, y := s.food.y } → s1.snake.length = s.snake.length + 1) := by
  refine ⟨moveSnake_returns s (by rw [hs]; exact List.cons_ne_nil _ _), ?_⟩
  intro s1 rest hr
  have hd1 : c = moveHead s.nextDirection h := by
    rw [hd]; cases s.nextDirection <;> rfl
  clear hd
  subst hd1
  rw [← checkCollision_iff, Bool.not_eq_true] at hfree
  have hlen : (s.snake.dropLast).length + 1 = s.snake.length := by
    rw [hs]; simp
  by_cases hf : (moveHead s.nextDirection h).x = s.food.x ∧ (moveHead s.nextDirection h).y = s.food.y
  · obtain ⟨newFood, ds1, newPhase, newBarriers, -, -, rfl⟩ :=
      moveSnake_food s ds h t hs hfree hf s1 rest hr
    refine ⟨rfl, rfl, rfl, fun hne => absurd ((food_cell_iff _ _).mp hf) hne, fun _ => ?_⟩
    simp only [fed, List.length_append, List.length_cons, List.length_nil]
    omega
  · rw [moveSnake_plain s ds h t hs hfree hf] at hr
    cases hr
    refine ⟨rfl, rfl, rfl, fun _ => ⟨rfl, ?_⟩, fun he => absurd ((food_cell_iff _ _).mpr he) hf⟩
    simp only [List.length_cons]
    omega

/-- Witness of C3: snake [(5,5)], pending RIGHT, nothing at (6,5) gives snake [(6,5)],
direction RIGHT, gameOver false. -/
theorem C3_movement_witness :
    moveSnake exStart [] = some ({ exStart with snake := [{ x := 6, y := 5 }] }, []) ∧
    ({ exStart with snake := [{ x := 6, y := 5 }] } : State).snake = [{ x := 6, y := 5 }] ∧
    ({ exStart with snake := [{ x := 6, y := 5 }] } : State).direction = Direction.RIGHT ∧
    ({ exStart with snake := [{ x := 6, y := 5 }] } : State).gameOver = false :=
  have hr : moveSnake exStart [] = some ({ exStart with snake := [{ x := 6, y := 5 }] }, []) := by
    decide
  have h := (C3_movement exStart [] { x := 5, y := 5 } [] { x := 6, y := 5 } rfl rfl
    (by decide)).2 _ _ hr
  ⟨hr, (h.2.2.2.1 (by decide)).1, h.2.1, h.2.2.1⟩

/-- C4: a tick whose new head does not collide returns on suitable draws, and whenever it
returns: if the new head is the food cell the
score grows by exactly 1 for NORMAL food and by exactly 5 for SPECIAL food; if it is not
the food cell, the score and the food are unchanged. -/
theorem C4_score (s : State) (ds : List Draw) (h : Cell) (t : List Cell)
    (c : Cell) (hs : s.snake = h :: t)
    (hd : c = (match s.nextDirection with
      | Direction.UP => { x := h.x, y := h.y - 1 }
      | Direction.DOWN => { x := h.x, y := h.y + 1 }
      | Direction.LEFT => { x := h.x - 1, y := h.y }
      | Direction.RIGHT => { x := h.x + 1, y := h.y }))
    (hfree : ¬ (c.x < 0 ∨ c.x ≥ 20 ∨ c.y < 0 ∨ c.y ≥ 20 ∨ c ∈ s.snake ∨ c ∈ s.barriers)) :
    (∃ ds0 s1 rest, moveSnake s ds0 = some (s1, rest)) ∧
    ∀ s1 rest, moveSnake s ds = some (s1, rest) →
      (c = { x := s.food.x, y := s.food.y } →
        (s.food.type = FoodType.normal → s1.score = s.score + 1) ∧
        (s.food.type = FoodType.special → s1.score = s.score + 5)) ∧
      (c ≠ { x := s.food.x, y := s.food.y } → s1.score = s.score ∧ s1.food = s.food) := by
  refine ⟨moveSnake_returns s (by rw [hs]; exact List.cons_ne_nil _ _), ?_⟩
  intro s1 rest hr
  have hd1 : c = moveHead s.nextDirection h := by
    rw [hd]; cases s.nextDirection <;> rfl
  clear hd
  subst hd1
  rw [← checkCollision_iff, Bool.not_eq_true] at hfree
  by_cases hf : (moveHead s.nextDirection h).x = s.food.x ∧ (moveHead s.nextDirection h).y = s.food.y
  · obtain ⟨newFood, ds1, newPhase, newBarriers, -, -, rfl⟩ :=
      moveSnake_food s ds h t hs hfree hf s1 rest hr
    refine ⟨fun _ => ⟨fun hn => ?_, fun hsp => ?_⟩, fun hne => absurd ((food_cell_iff _ _).mp hf) hne⟩
    · simp [fed, hn]
    · simp [fed, hsp, SPECIAL_FOOD_SCORE]
  · rw [moveSnake_plain s ds h t hs hfree hf] at hr
    cases hr
    exact ⟨fun he => absurd ((food_cell_iff _ _).mpr he) hf, fun _ => ⟨rfl, rfl⟩⟩

/-- Witness of C4: eating the SPECIAL food of `exSpecial` takes the score from 0 to 5. -/
theorem C4_score_witness :
    ∃ s1 rest, moveSnake exSpecial foodDraws = some (s1, rest) ∧ s1.score = 5 := by
  have hr : ∃ s1 rest, moveSnake exSpecial foodDraws = some (s1, rest) := ⟨_, _, rfl⟩
  obtain ⟨s1, rest, hr⟩ := hr
  have h := (C4_score exSpecial foodDraws { x := 9, y := 10 } [] { x := 10, y := 10 } rfl rfl
    (by decide)).2 s1 rest hr
  exact ⟨s1, rest, hr, (h.1 rfl).2 rfl⟩

theorem run_reachable (es : List (Event × List Draw)) :
    ∀ g g1 : Game, Reachable g → run g es = some g1 → Reachable g1 := by
  induction es with
  | nil =>
    intro g g1 hg hr
    simp only [run, Option.some.injEq] at hr
    exact hr ▸ hg
  | cons e es ih =>
    intro g g1 hg hr
    obtain ⟨ev, ds⟩ := e
    simp only [run] at hr
    cases hst : step g ev ds with
    | none => rw [hst] at hr; cases hr
    | some r =>
      rw [hst] at hr
      exact ih r.1 g1 (Reachable.step g r.1 ev ds r.2 hg hst) hr

theorem mount_run_reachable (stored : Int) (ds rest : List Draw) (g g1 : Game)
    (es : List (Event × List Draw)) (hm : mount stored ds = some (g, rest))
    (hr : run g es = some g1) : Reachable g1 :=
  run_reachable es g g1 (Reachable.mount stored ds rest g hm) hr

theorem exSpecial_reachable :
    Reachable { state := exSpecial, tickNextDirection := Direction.RIGHT } := by
  have hm : mount 0 [coordDraw 0 (by decide), coordDraw 0 (by decide), coordDraw 0 (by decide)] =
      some ({ state := { exSpecial with snake := [{ x := 5, y := 5 }] },
              tickNextDirection := Direction.RIGHT }, []) := by decide
  exact mount_run_reachable _ _ _ _ _ pathEvents hm (by decide)

theorem exNormal_reachable :
    Reachable { state := exNormal, tickNextDirection := Direction.RIGHT } := by
  have hm : mount 0 [coordDraw 10 (by decide), coordDraw 0 (by decide), coordDraw 0 (by decide)] =
      some ({ state := { exNormal with snake := [{ x := 5, y := 5 }] },
              tickNextDirection := Direction.RIGHT }, []) := by decide
  exact mount_run_reachable _ _ _ _ _ pathEvents hm (by decide)

/-- C5: the state `exSpecial` (score 0, phase 0, SPECIAL food right of the head) is
reachable, and its tick eats the food and brings the score to 5, which is at least
(0+1)*5, yet leaves the phase at 0 and the barriers as they were. -/
theorem C5_special_food_keeps_phase :
    Reachable { state := exSpecial, tickNextDirection := Direction.RIGHT } ∧
    ∃ s1 rest, moveSnake exSpecial foodDraws = some (s1, rest) ∧
      s1.score = 5 ∧ s1.score ≥ (exSpecial.phase + 1) * 5 ∧
      s1.phase = 0 ∧ s1.barriers = exSpecial.barriers :=
  ⟨exSpecial_reachable, _, _, rfl, by decide, by decide, by decide, by decide⟩

/-- C6: the state `exNormal` (score 0, tick interval 150, NORMAL food right of the head)
is reachable, and its tick eats the food, brings the score to 1, which is no multiple
of 5, and lowers the tick interval to 145. -/
theorem C6_first_food_speeds_up :
    Reachable { state := exNormal, tickNextDirection := Direction.RIGHT } ∧
    ∃ s1 rest, moveSnake exNormal foodDraws = some (s1, rest) ∧
      s1.score = 1 ∧ s1.score % 5 ≠ 0 ∧ exNormal.speed = 150 ∧ s1.speed = 145 :=
  ⟨exNormal_reachable, _, _, rfl, by decide, by decide, by decide, by decide⟩

theorem getFoodType_special_iff (d : Draw) :
    getFoodType d = FoodType.special ↔ (d.num : ℚ) / (d.den : ℚ) < 1 / 10 := by
  have hden : (0 : ℚ) < (d.den : ℚ) := by
    have := d.lt
    exact_mod_cast (by omega : 0 < d.den)
  rw [div_lt_div_iff₀ hden (by norm_num : (0 : ℚ) < 10), one_mul]
  unfold getFoodType
  constructor
  · intro h
    split at h
    · next hlt => exact_mod_cast hlt
    · cases h
  · intro h
    have hlt : d.num * 10 < d.den := by exact_mod_cast h
    simp [hlt]

theorem generateFood_spec (s : State) :
    ∀ (ds rest : List Draw) (f : Food), generateFood s ds = some (f, rest) →
      ({ x := f.x, y := f.y } : Cell) ∉ s.snake ∧ ({ x := f.x, y := f.y } : Cell) ∉ s.barriers ∧
      ∃ rejected dx dy dt, ds = rejected ++ dx :: dy :: dt :: rest ∧
        f = { x := randCoord dx, y := randCoord dy, type := getFoodType dt } := by
  intro ds
  induction ds using generateFood.induct s with
  | case1 dx dy dt tl newFood hrej ih =>
    intro rest f hr
    rw [generateFood] at hr
    simp only [newFood] at hrej
    simp only [hrej, if_true] at hr
    obtain ⟨h1, h2, rejected, ex, ey, et, hds, hf⟩ := ih rest f hr
    exact ⟨h1, h2, dx :: dy :: dt :: rejected, ex, ey, et, by rw [hds]; rfl, hf⟩
  | case2 dx dy dt tl newFood hacc =>
    intro rest f hr
    rw [generateFood] at hr
    simp only [newFood] at hacc
    simp only [hacc, if_false, Option.some.injEq, Prod.mk.injEq, Bool.false_eq_true] at hr
    obtain ⟨rfl, rfl⟩ := hr
    simp only [Bool.or_eq_true, not_or, Bool.not_eq_true] at hacc
    refine ⟨?_, ?_, [], dx, dy, dt, rfl, rfl⟩
    · rw [← any_sameCell_iff, hacc.1]; simp
    · rw [← any_sameCell_iff, hacc.2]; simp
  | case3 ds hne =>
    intro rest f hr
    rw [generateFood] at hr
    · cases hr
    · exact hne

/-- C7: whenever generateFood returns, the food cell lies in the grid, is no segment of
the snake and no cell of the barrier list it was given, and the draws split into rejected
draws followed by the accepted sample (x draw, y draw, kind draw) and the untouched rest;
the kind is SPECIAL exactly when the accepted kind draw is below 0.1 and NORMAL otherwise. -/
theorem C7_generateFood (s : State) (ds rest : List Draw) (f : Food)
    (hr : generateFood s ds = some (f, rest)) :
    (0 ≤ f.x ∧ f.x < 20 ∧ 0 ≤ f.y ∧ f.y < 20) ∧
    ({ x := f.x, y := f.y } : Cell) ∉ s.snake ∧ ({ x := f.x, y := f.y } : Cell) ∉ s.barriers ∧
    ∃ rejected dx dy dt, ds = rejected ++ dx :: dy :: dt :: rest ∧
      f.x = randCoord dx ∧ f.y = randCoord dy ∧
      (f.type = FoodType.special ↔ (dt.num : ℚ) / (dt.den : ℚ) < 1 / 10) ∧
      (f.type = FoodType.normal ↔ ¬ ((dt.num : ℚ) / (dt.den : ℚ) < 1 / 10)) := by
  obtain ⟨h1, h2, rejected, dx, dy, dt, hds, rfl⟩ := generateFood_spec s ds rest f hr
  refine ⟨⟨randCoord_nonneg dx, randCoord_lt dx, randCoord_nonneg dy, randCoord_lt dy⟩, h1, h2,
    rejected, dx, dy, dt, hds, rfl, rfl, getFoodType_special_iff dt, ?_⟩
  rw [← getFoodType_special_iff]
  cases getFoodType dt <;> simp

/-- Witness of C7: with snake [(5,5)] and barrier (0,0), the sample (0,0) is rejected and
the sample (3,4) with kind draw 1/2 is returned as NORMAL food. -/
theorem C7_generateFood_witness :
    generateFood exStart retryFoodDraws = some ({ x := 3, y := 4, type := FoodType.normal }, []) ∧
    ({ x := 3, y := 4 } : Cell) ∉ exStart.snake ∧ ({ x := 3, y := 4 } : Cell) ∉ exStart.barriers :=
  have hr : generateFood exStart retryFoodDraws =
      some ({ x := 3, y := 4, type := FoodType.normal }, []) := by decide
  ⟨hr, (C7_generateFood exStart retryFoodDraws [] _ hr).2.1,
    (C7_generateFood exStart retryFoodDraws [] _ hr).2.2.1⟩

theorem drawBarrier_spec (bs : List Cell) :
    ∀ (ds rest : List Draw) (c : Cell), drawBarrier bs ds = some (c, rest) →
      c ∉ bs ∧ 0 ≤ c.x ∧ c.x < 20 ∧ 0 ≤ c.y ∧ c.y < 20 := by
  intro ds
  induction ds using drawBarrier.induct bs with
  | case1 dx dy tl x y hrej ih =>
    intro rest c hr
    rw [drawBarrier] at hr
    simp only [x, y] at hrej
    simp only [hrej, if_true] at hr
    exact ih rest c hr
  | case2 dx dy tl x y hacc =>
    intro rest c hr
    rw [drawBarrier] at hr
    simp only [x, y] at hacc
    simp only [hacc, if_false, Option.some.injEq, Prod.mk.injEq, Bool.false_eq_true] at hr
    obtain ⟨rfl, rfl⟩ := hr
    refine ⟨?_, randCoord_nonneg dx, randCoord_lt dx, randCoord_nonneg dy, randCoord_lt dy⟩
    rw [← any_sameCell_iff]
    simpa using hacc
  | case3 ds hne =>
    intro rest c hr
    rw [drawBarrier] at hr
    · cases hr
    · exact hne

theorem barrierLoop_spec (n : Nat) :
    ∀ (bs out : List Cell) (ds rest : List Draw), barrierLoop n bs ds = some (out, rest) →
      out.length = bs.length + n ∧ (bs.Nodup → out.Nodup) ∧
      ((∀ c ∈ bs, 0 ≤ c.x ∧ c.x < 20 ∧ 0 ≤ c.y ∧ c.y < 20) →
        ∀ c ∈ out, 0 ≤ c.x ∧ c.x < 20 ∧ 0 ≤ c.y ∧ c.y < 20) := by
  induction n with
  | zero =>
    intro bs out ds rest hr
    simp only [barrierLoop, Option.some.injEq, Prod.mk.injEq] at hr
    obtain ⟨rfl, rfl⟩ := hr
    exact ⟨rfl, id, id⟩
  | succ n ih =>
    intro bs out ds rest hr
    simp only [barrierLoop] at hr
    cases hd : drawBarrier bs ds with
    | none => rw [hd] at hr; cases hr
    | some r =>
      obtain ⟨c, ds1⟩ := r
      rw [hd] at hr
      obtain ⟨hnew, hb⟩ := drawBarrier_spec bs ds ds1 c hd
      obtain ⟨hlen, hnd, hin⟩ := ih (bs ++ [c]) out ds1 rest hr
      refine ⟨?_, fun hbs => hnd ?_, fun hall => hin ?_⟩
      · rw [hlen, List.length_append, List.length_singleton]; omega
      · rw [List.nodup_append]
        refine ⟨hbs, List.nodup_singleton c, ?_⟩
        intro a ha hac
        rw [List.mem_singleton] at hac
        exact hnew (hac ▸ ha)
      · intro a ha
        rw [List.mem_append, List.mem_singleton] at ha
        rcases ha with ha | rfl
        · exact hall a ha
        · exact hb

/-- C9: for a phase that is at least 0, getBarrierPositions returns on suitable draws, and
whenever it returns the result has exactly min(phase+1, 10) cells, no cell occurs twice, and every cell lies in the grid;
the count is phase+1 up to phase 9 and 10 from phase 9 on. -/
theorem C9_getBarrierPositions (phase : Int) (hp : 0 ≤ phase) (ds rest : List Draw)
    (bs : List Cell) (hr : getBarrierPositions phase ds = some (bs, rest)) :
    (∃ ds0 bs0 rest0, getBarrierPositions phase ds0 = some (bs0, rest0)) ∧
    (bs.length : Int) = min (phase + 1) 10 ∧ bs.Nodup ∧
    (∀ c ∈ bs, 0 ≤ c.x ∧ c.x < 20 ∧ 0 ≤ c.y ∧ c.y < 20) ∧
    (phase ≤ 9 → (bs.length : Int) = phase + 1) ∧ (9 ≤ phase → bs.length = 10) := by
  have hex : ∃ ds0 bs0 rest0, getBarrierPositions phase ds0 = some (bs0, rest0) := by
    have h := getBarrierPositions_rowDraws phase
    cases hq : getBarrierPositions phase rowDraws with
    | none => rw [hq] at h; cases h
    | some r => exact ⟨rowDraws, r.1, r.2, hq⟩
  refine ⟨hex, ?_⟩
  unfold getBarrierPositions at hr
  obtain ⟨hlen, hnd, hin⟩ := barrierLoop_spec _ [] bs ds rest hr
  simp only [List.length_nil, Nat.zero_add] at hlen
  have hcount : (bs.length : Int) = min (phase + 1) 10 := by
    rw [hlen]; omega
  refine ⟨hcount, hnd List.nodup_nil, hin (fun c hc => absurd hc (List.not_mem_nil c)), ?_, ?_⟩
  · intro h9; omega
  · intro h9; omega

/-- Witness of C9: at phase 1 the samples (0,0), (0,0), (1,0) give the two barriers
(0,0) and (1,0). -/
theorem C9_getBarrierPositions_witness :
    (0 : Int) ≤ 1 ∧
    getBarrierPositions 1 retryBarrierDraws = some ([{ x := 0, y := 0 }, { x := 1, y := 0 }], []) ∧
    ([{ x := 0, y := 0 }, { x := 1, y := 0 }] : List Cell).Nodup :=
  have hr : getBarrierPositions 1 retryBarrierDraws =
      some ([{ x := 0, y := 0 }, { x := 1, y := 0 }], []) := by decide
  ⟨by decide, hr, (C9_getBarrierPositions 1 (by decide) retryBarrierDraws [] _ hr).2.2.1⟩

theorem moveSnake_cases (s : State) (ds : List Draw) (s1 : State) (rest : List Draw)
    (hr : moveSnake s ds = some (s1, rest)) :
    ∃ h t, s.snake = h :: t ∧
      ((checkCollision s (moveHead s.nextDirection h) = true ∧ s1 = collided s ∧ rest = ds) ∨
       (checkCollision s (moveHead s.nextDirection h) = false ∧
          ¬ ((moveHead s.nextDirection h).x = s.food.x ∧ (moveHead s.nextDirection h).y = s.food.y) ∧
          s1 = moved s (moveHead s.nextDirection h) ∧ rest = ds) ∨
       (checkCollision s (moveHead s.nextDirection h) = false ∧
          ((moveHead s.nextDirection h).x = s.food.x ∧ (moveHead s.nextDirection h).y = s.food.y) ∧
          ∃ newFood ds1 newPhase newBarriers,
            generateFood s ds = some (newFood, ds1) ∧
            (if s.score + 1 ≥ (s.phase + 1) * 5 then advancePhase s ds1
              else some ((s.phase, s.barriers), ds1)) = some ((newPhase, newBarriers), rest) ∧
            s1 = fed s (moveHead s.nextDirection h) newFood newPhase newBarriers)) := by
  cases hs : s.snake with
  | nil => simp [moveSnake, hs] at hr
  | cons h t =>
    refine ⟨h, t, rfl, ?_⟩
    cases hc : checkCollision s (moveHead s.nextDirection h) with
    | true =>
      rw [moveSnake_collision s ds h t hs hc] at hr
      cases hr
      exact Or.inl ⟨rfl, rfl, rfl⟩
    | false =>
      by_cases hf : (moveHead s.nextDirection h).x = s.food.x ∧ (moveHead s.nextDirection h).y = s.food.y
      · exact Or.inr (Or.inr ⟨rfl, hf, moveSnake_food s ds h t hs hc hf s1 rest hr⟩)
      · rw [moveSnake_plain s ds h t hs hc hf] at hr
        cases hr
        exact Or.inr (Or.inl ⟨rfl, hf, rfl, rfl⟩)

theorem advancePhase_cases (s : State) (ds rest : List Draw) (p : Int) (b : List Cell)
    (hr : advancePhase s ds = some ((p, b), rest)) :
    (s.phase < 14 ∧ p = s.phase + 1 ∧ getBarrierPositions (s.phase + 1) ds = some (b, rest)) ∨
    (¬ s.phase < 14 ∧ p = s.phase ∧ b = s.barriers ∧ rest = ds) := by
  unfold advancePhase at hr
  simp only [NUM_PHASES] at hr
  split at hr
  · next hlt =>
    split at hr
    · cases hr
    · next bs r hg =>
      cases hr
      exact Or.inl ⟨by omega, rfl, hg⟩
  · next hge =>
    cases hr
    exact Or.inr ⟨by omega, rfl, rfl, rfl⟩

theorem phased_cases (s : State) (ds rest : List Draw) (p : Int) (b : List Cell)
    (hr : (if s.score + 1 ≥ (s.phase + 1) * 5 then advancePhase s ds
              else some ((s.phase, s.barriers), ds)) = some ((p, b), rest)) :
    (s.score + 1 ≥ (s.phase + 1) * 5 ∧ s.phase < 14 ∧ p = s.phase + 1 ∧
      getBarrierPositions (s.phase + 1) ds = some (b, rest)) ∨
    (p = s.phase ∧ b = s.barriers ∧ rest = ds) := by
  split at hr
  · next hge =>
    rcases advancePhase_cases s ds rest p b hr with ⟨h1, h2, h3⟩ | ⟨-, h2, h3, h4⟩
    · exact Or.inl ⟨hge, h1, h2, h3⟩
    · exact Or.inr ⟨h2, h3, h4⟩
  · cases hr
    exact Or.inr ⟨rfl, rfl, rfl⟩

theorem moveSnake_phase (s : State) (ds : List Draw) (s1 : State) (rest : List Draw)
    (hr : moveSnake s ds = some (s1, rest)) :
    s1.phase = s.phase ∨ (s.phase < 14 ∧ s1.phase = s.phase + 1) := by
  obtain ⟨h, t, -, hcase⟩ := moveSnake_cases s ds s1 rest hr
  rcases hcase with ⟨-, rfl, -⟩ | ⟨-, -, rfl, -⟩ | ⟨-, -, newFood, ds1, p, b, -, hp, rfl⟩
  · exact Or.inl rfl
  · exact Or.inl rfl
  · rcases phased_cases s ds1 rest p b hp with ⟨-, h1, h2, -⟩ | ⟨h2, -, -⟩
    · exact Or.inr ⟨h1, h2⟩
    · exact Or.inl h2

theorem handleKeyPress_frame (s : State) (key : Key) :
    ∃ d, handleKeyPress s key = { s with nextDirection := d } := by
  cases key <;> simp only [handleKeyPress] <;> first | (split <;> exact ⟨_, rfl⟩) | exact ⟨s.nextDirection, rfl⟩

theorem resetGame_cases (s : State) (ds rest : List Draw) (s1 : State)
    (hr : resetGame s ds = some (s1, rest)) :
    ∃ dt ds1 bs, ds = dt :: ds1 ∧ getBarrierPositions 0 ds1 = some (bs, rest) ∧
      s1 = { s with
                snake := INITIAL_SNAKE
                food := { x := INITIAL_FOOD.x, y := INITIAL_FOOD.y, type := getFoodType dt }
                direction := Direction.RIGHT
                nextDirection := Direction.RIGHT
                gameOver := false
                score := 0
                phase := 0
                barriers := bs
                speed := 150 } := by
  unfold resetGame at hr
  split at hr
  · cases hr
  · next dt ds1 =>
    split at hr
    · cases hr
    · next bs ds2 hg =>
      cases hr
      exact ⟨dt, ds1, bs, rfl, hg, rfl⟩

theorem initialState_cases (stored : Int) (ds rest : List Draw) (s1 : State)
    (hr : initialState stored ds = some (s1, rest)) :
    ∃ dt ds1 bs, ds = dt :: ds1 ∧ getBarrierPositions 0 ds1 = some (bs, rest) ∧
      s1 = { snake := INITIAL_SNAKE
             food := { x := INITIAL_FOOD.x, y := INITIAL_FOOD.y, type := getFoodType dt }
             direction := Direction.RIGHT
             nextDirection := Direction.RIGHT
             gameOver := false
             score := 0
             phase := 0
             barriers := bs
             highScore := stored
             speed := 150 } := by
  unfold initialState at hr
  split at hr
  · cases hr
  · next dt ds1 =>
    split at hr
    · cases hr
    · next bs ds2 hg =>
      cases hr
      exact ⟨dt, ds1, bs, rfl, hg, rfl⟩

/-- An invariant of the state that holds after the first render, is kept by `moveSnake`
for every pending direction, by `resetGame` and by a change of the pending direction,
holds in every reachable game. -/
theorem reachable_invariant (P : State → Prop)
    (hinit : ∀ stored ds s rest, initialState stored ds = some (s, rest) → P s)
    (hmove : ∀ s ds s1 rest, P s → moveSnake s ds = some (s1, rest) → P s1)
    (hreset : ∀ s ds s1 rest, P s → resetGame s ds = some (s1, rest) → P s1)
    (hnext : ∀ s d, P s → P { s with nextDirection := d }) :
    ∀ g, Reachable g → P g.state := by
  intro g hg
  induction hg with
  | mount stored ds rest g hm =>
    unfold mount at hm
    split at hm
    · cases hm
    · next s r hi =>
      cases hm
      exact hinit stored ds s _ hi
  | step g g1 e ds rest _ hst ih =>
    cases e with
    | keydown key =>
      simp only [step] at hst
      split at hst
      · cases hst; exact ih
      · cases hst
        obtain ⟨d, hd⟩ := handleKeyPress_frame g.state key
        simp only [hd]
        exact hnext _ d ih
    | interval =>
      simp only [step, tick] at hst
      split at hst
      · cases hst; exact ih
      · split at hst
        · cases hst
        · next s1 r hm =>
          cases hst
          exact hnext _ _ (hmove _ ds s1 _ (hnext _ _ ih) hm)
    | restartClick =>
      simp only [step] at hst
      split at hst
      · split at hst
        · cases hst
        · next s1 r hrs =>
          cases hst
          exact hreset _ ds s1 _ ih hrs
      · cases hst; exact ih

theorem reachable_phase_bounds (g : Game) (hg : Reachable g) :
    0 ≤ g.state.phase ∧ g.state.phase ≤ 14 := by
  refine reachable_invariant (fun s => 0 ≤ s.phase ∧ s.phase ≤ 14) ?_ ?_ ?_ ?_ g hg
  · intro stored ds s rest hi
    obtain ⟨dt, ds1, bs, -, -, rfl⟩ := initialState_cases stored ds rest s hi
    exact ⟨le_refl _, by norm_num⟩
  · intro s ds s1 rest hP hm
    rcases moveSnake_phase s ds s1 rest hm with h | ⟨h1, h2⟩
    · rw [h]; exact hP
    · rw [h2]; exact ⟨by omega, by omega⟩
  · intro s ds s1 rest _ hrs
    obtain ⟨dt, ds1, bs, -, -, rfl⟩ := resetGame_cases s ds rest s1 hrs
    exact ⟨le_refl _, by norm_num⟩
  · intro s d hP
    exact hP

/-- C10: in every reachable game the phase lies between 0 and 14; every tick that returns
leaves the phase unchanged or raises it by exactly 1; and a food-consuming tick at phase
14 leaves phase and barriers unchanged while the score grows by 1 or 5, the snake grows by
one segment behind the new head, and the tick interval follows the usual speed rule. -/
theorem C10_phase_cap (g : Game) (hg : Reachable g) (s : State) (ds : List Draw)
    (s1 : State) (rest : List Draw) (hr : moveSnake s ds = some (s1, rest)) :
    (0 ≤ g.state.phase ∧ g.state.phase ≤ 14) ∧
    (s1.phase = s.phase ∨ s1.phase = s.phase + 1) ∧
    (∀ h t c, s.snake = h :: t →
      c = (match s.nextDirection with
        | Direction.UP => { x := h.x, y := h.y - 1 }
        | Direction.DOWN => { x := h.x, y := h.y + 1 }
        | Direction.LEFT => { x := h.x - 1, y := h.y }
        | Direction.RIGHT => { x := h.x + 1, y := h.y }) →
      ¬ (c.x < 0 ∨ c.x ≥ 20 ∨ c.y < 0 ∨ c.y ≥ 20 ∨ c ∈ s.snake ∨ c ∈ s.barriers) →
      c = { x := s.food.x, y := s.food.y } → s.phase = 14 →
        s1.phase = 14 ∧ s1.barriers = s.barriers ∧
        s1.score = s.score + (if s.food.type = FoodType.special then 5 else 1) ∧
        s1.snake.head? = some c ∧ s1.snake.length = s.snake.length + 1 ∧
        s1.speed = (if s.score % 5 = 0 then max 50 (s.speed - 5) else s.speed)) := by
  refine ⟨reachable_phase_bounds g hg, ?_, ?_⟩
  · rcases moveSnake_phase s ds s1 rest hr with h | ⟨-, h⟩
    · exact Or.inl h
    · exact Or.inr h
  · intro h t c hs hd hfree hfood h14
    have hd1 : c = moveHead s.nextDirection h := by
      rw [hd]; cases s.nextDirection <;> rfl
    clear hd
    subst hd1
    rw [← checkCollision_iff, Bool.not_eq_true] at hfree
    have hf := (food_cell_iff _ _).mpr hfood
    obtain ⟨newFood, ds1, p, b, -, hp, rfl⟩ := moveSnake_food s ds h t hs hfree hf s1 rest hr
    have hlen : (s.snake.dropLast).length + 1 = s.snake.length := by
      rw [hs]; simp
    rcases phased_cases s ds1 rest p b hp with ⟨-, hlt, -, -⟩ | ⟨hp1, hb1, -⟩
    · omega
    · subst hp1 hb1
      refine ⟨h14, rfl, rfl, rfl, ?_, rfl⟩
      simp only [fed, List.length_append, List.length_cons, List.length_nil]
      omega

/-- Witness of C10: the reachable game at `exSpecial` has phase 0, and the food-consuming
tick of `exCap` (phase 14, score 70, interval 100) keeps phase 14 and its barriers, brings
the score to 71, the snake to length 3 and the interval to 95. -/
theorem C10_phase_cap_witness :
    ∃ s1 rest, moveSnake exCap foodDraws = some (s1, rest) ∧
      s1.phase = 14 ∧ s1.barriers = exCap.barriers ∧ s1.score = 71 ∧ s1.snake.length = 3 ∧
      s1.speed = 95 := by
  have hr : ∃ s1 rest, moveSnake exCap foodDraws = some (s1, rest) := ⟨_, _, rfl⟩
  obtain ⟨s1, rest, hr⟩ := hr
  have h := (C10_phase_cap { state := exSpecial, tickNextDirection := Direction.RIGHT }
    exSpecial_reachable exCap foodDraws s1 rest hr).2.2 { x := 9, y := 10 } [{ x := 8, y := 10 }]
    { x := 10, y := 10 } rfl rfl (by decide) rfl rfl
  exact ⟨s1, rest, hr, h.1, h.2.1, h.2.2.1, h.2.2.2.2.1, h.2.2.2.2.2⟩

theorem exBarrierAtStart_reachable : Reachable exBarrierAtStart :=
  Reachable.mount 0 [coordDraw 10 (by decide), coordDraw 10 (by decide), coordDraw 10 (by decide)]
    [] exBarrierAtStart (by decide)

theorem exFoodOnHead_reachable : Reachable exFoodOnHead :=
  run_reachable
    [(Event.interval, [coordDraw 10 (by decide), coordDraw 10 (by decide), coordDraw 10 (by decide)])]
    _ _ exNormal_reachable (by decide)

theorem exBarrierOnFood_reachable : Reachable exBarrierOnFood :=
  run_reachable
    [(Event.interval, [coordDraw 11 (by decide), coordDraw 10 (by decide), coordDraw 10 (by decide)]),
     (Event.interval, [coordDraw 3 (by decide), coordDraw 4 (by decide), coordDraw 10 (by decide),
        coordDraw 3 (by decide), coordDraw 4 (by decide),
        coordDraw 11 (by decide), coordDraw 10 (by decide)])]
    _ _ exSpecial_reachable (by decide)

/-- C8, as stated, fails: three reachable games in which the food cell is not free.  Right
after the first render the only barrier can lie on the food cell (10,10); after a
food-consuming tick the replacement food can lie on the new head; and after a
food-consuming tick that advances the phase a regenerated barrier can lie on the
replacement food (and another one on the new head). -/
theorem C8_food_cell_not_free :
    (Reachable exBarrierAtStart ∧
      ({ x := exBarrierAtStart.state.food.x, y := exBarrierAtStart.state.food.y } : Cell) ∈
        exBarrierAtStart.state.barriers) ∧
    (Reachable exFoodOnHead ∧
      exFoodOnHead.state.snake.head? =
        some { x := exFoodOnHead.state.food.x, y := exFoodOnHead.state.food.y }) ∧
    (Reachable exBarrierOnFood ∧
      ({ x := exBarrierOnFood.state.food.x, y := exBarrierOnFood.state.food.y } : Cell) ∈
        exBarrierOnFood.state.barriers) :=
  ⟨⟨exBarrierAtStart_reachable, by decide⟩, ⟨exFoodOnHead_reachable, by decide⟩,
    ⟨exBarrierOnFood_reachable, by decide⟩⟩

theorem generateFood_bounds (s : State) (ds rest : List Draw) (f : Food)
    (hr : generateFood s ds = some (f, rest)) :
    0 ≤ f.x ∧ f.x < 20 ∧ 0 ≤ f.y ∧ f.y < 20 := by
  obtain ⟨-, -, rejected, dx, dy, dt, -, rfl⟩ := generateFood_spec s ds rest f hr
  exact ⟨randCoord_nonneg dx, randCoord_lt dx, randCoord_nonneg dy, randCoord_lt dy⟩

theorem fed_snake_subset (s : State) (c : Cell) (f : Food) (p : Int) (b : List Cell) :
    ∀ seg ∈ (fed s c f p b).snake, seg = c ∨ seg ∈ s.snake := by
  intro seg hseg
  have hsub : ∀ a ∈ c :: s.snake.dropLast, a = c ∨ a ∈ s.snake := by
    intro a ha
    rw [List.mem_cons] at ha
    rcases ha with ha | ha
    · exact Or.inl ha
    · exact Or.inr (List.dropLast_subset _ ha)
  simp only [fed, List.mem_append, List.mem_singleton] at hseg
  rcases hseg with hseg | hseg
  · exact hsub seg hseg
  · exact hsub seg (hseg ▸ List.getLast_mem _)

/-- C8, amended: a food-consuming tick returns on suitable draws, and whenever it returns
the replacement food cell lies in the grid,
is no segment of the snake as it was before the tick and no cell of the barrier list as it
was before the tick; hence it is no segment of the new snake that is off the new head's
cell. -/
theorem C8_replacement_food (s : State) (ds : List Draw) (h : Cell) (t : List Cell)
    (c : Cell) (hs : s.snake = h :: t)
    (hd : c = (match s.nextDirection with
      | Direction.UP => { x := h.x, y := h.y - 1 }
      | Direction.DOWN => { x := h.x, y := h.y + 1 }
      | Direction.LEFT => { x := h.x - 1, y := h.y }
      | Direction.RIGHT => { x := h.x + 1, y := h.y }))
    (hfree : ¬ (c.x < 0 ∨ c.x ≥ 20 ∨ c.y < 0 ∨ c.y ≥ 20 ∨ c ∈ s.snake ∨ c ∈ s.barriers))
    (hfood : c = { x := s.food.x, y := s.food.y }) :
    (∃ ds0 s1 rest, moveSnake s ds0 = some (s1, rest)) ∧
    ∀ s1 rest, moveSnake s ds = some (s1, rest) →
      (0 ≤ s1.food.x ∧ s1.food.x < 20 ∧ 0 ≤ s1.food.y ∧ s1.food.y < 20) ∧
      ({ x := s1.food.x, y := s1.food.y } : Cell) ∉ s.snake ∧
      ({ x := s1.food.x, y := s1.food.y } : Cell) ∉ s.barriers ∧
      (∀ seg ∈ s1.snake, seg ≠ c → seg ≠ { x := s1.food.x, y := s1.food.y }) := by
  refine ⟨moveSnake_returns s (by rw [hs]; exact List.cons_ne_nil _ _), ?_⟩
  intro s1 rest hr
  have hd1 : c = moveHead s.nextDirection h := by
    rw [hd]; cases s.nextDirection <;> rfl
  clear hd
  subst hd1
  rw [← checkCollision_iff, Bool.not_eq_true] at hfree
  have hf := (food_cell_iff _ _).mpr hfood
  obtain ⟨newFood, ds1, p, b, hg, -, rfl⟩ := moveSnake_food s ds h t hs hfree hf s1 rest hr
  obtain ⟨h1, h2, -⟩ := generateFood_spec s ds ds1 newFood hg
  refine ⟨generateFood_bounds s ds ds1 newFood hg, h1, h2, ?_⟩
  intro seg hseg hne heq
  rcases fed_snake_subset s _ newFood p b seg hseg with hc | hin
  · exact hne hc
  · exact h1 (heq ▸ hin)

/-- Witness of C8 as amended: the tick of `exNormal` with the food sample (3,4) puts the
new food at (3,4), off the old snake [(9,10)] and off the old barrier (0,0). -/
theorem C8_replacement_food_witness :
    ∃ s1 rest, moveSnake exNormal foodDraws = some (s1, rest) ∧
      s1.food = { x := 3, y := 4, type := FoodType.normal } ∧
      ({ x := s1.food.x, y := s1.food.y } : Cell) ∉ exNormal.snake ∧
      ({ x := s1.food.x, y := s1.food.y } : Cell) ∉ exNormal.barriers := by
  have hr : ∃ s1 rest, moveSnake exNormal foodDraws = some (s1, rest) ∧
      s1.food = { x := 3, y := 4, type := FoodType.normal } := ⟨_, _, rfl, rfl⟩
  obtain ⟨s1, rest, hr, hfood⟩ := hr
  have h := (C8_replacement_food exNormal foodDraws { x := 9, y := 10 } [] { x := 10, y := 10 }
    rfl rfl (by decide) rfl).2 s1 rest hr
  exact ⟨s1, rest, hr, hfood, h.2.1, h.2.2.1⟩

/-- What line 142 does on a food-consuming tick below the last phase: the phase advances,
with barriers from `getBarrierPositions(phase + 1)`, exactly when the old score plus 1
reaches the threshold, whatever the kind of the food. -/
theorem moveSnake_phase_rule (s : State) (ds : List Draw) (h : Cell) (t : List Cell)
    (hs : s.snake = h :: t) (hc : checkCollision s (moveHead s.nextDirection h) = false)
    (hf : (moveHead s.nextDirection h).x = s.food.x ∧ (moveHead s.nextDirection h).y = s.food.y)
    (hlt : s.phase < 14) (s1 : State) (rest : List Draw)
    (hr : moveSnake s ds = some (s1, rest)) :
    (s.score + 1 ≥ (s.phase + 1) * 5 →
      s1.phase = s.phase + 1 ∧
      ∃ ds1, getBarrierPositions (s.phase + 1) ds1 = some (s1.barriers, rest)) ∧
    (¬ (s.score + 1 ≥ (s.phase + 1) * 5) → s1.phase = s.phase ∧ s1.barriers = s.barriers) := by
  obtain ⟨newFood, ds1, p, b, -, hp, rfl⟩ := moveSnake_food s ds h t hs hc hf s1 rest hr
  constructor
  · intro hge
    rw [if_pos hge] at hp
    rcases advancePhase_cases s ds1 rest p b hp with ⟨-, h2, h3⟩ | ⟨h1, -, -, -⟩
    · exact ⟨h2, ds1, h3⟩
    · exact absurd hlt h1
  · intro hnge
    rw [if_neg hnge] at hp
    cases hp
    exact ⟨rfl, rfl⟩

/-- What line 147 does on a food-consuming tick: the interval drops by 5, not below 50,
exactly when the score before the increment is a multiple of 5. -/
theorem moveSnake_speed_rule (s : State) (ds : List Draw) (h : Cell) (t : List Cell)
    (hs : s.snake = h :: t) (hc : checkCollision s (moveHead s.nextDirection h) = false)
    (hf : (moveHead s.nextDirection h).x = s.food.x ∧ (moveHead s.nextDirection h).y = s.food.y)
    (s1 : State) (rest : List Draw) (hr : moveSnake s ds = some (s1, rest)) :
    s1.speed = (if s.score % 5 = 0 then max 50 (s.speed - 5) else s.speed) := by
  obtain ⟨newFood, ds1, p, b, -, -, rfl⟩ := moveSnake_food s ds h t hs hc hf s1 rest hr
  rfl

theorem step_cases (g : Game) (e : Event) (ds : List Draw) (g1 : Game) (rest : List Draw)
    (hst : step g e ds = some (g1, rest)) :
    (e ≠ Event.restartClick ∧ g.state.gameOver = true ∧ g1 = g ∧ rest = ds) ∨
    (e = Event.restartClick ∧ g.state.gameOver = false ∧ g1 = g ∧ rest = ds) ∨
    (∃ key, e = Event.keydown key ∧ g.state.gameOver = false ∧
      g1 = { g with state := handleKeyPress g.state key } ∧ rest = ds) ∨
    (e = Event.interval ∧ g.state.gameOver = false ∧
      ∃ s1, moveSnake { g.state with nextDirection := g.tickNextDirection } ds = some (s1, rest) ∧
        g1 = { state := { s1 with nextDirection := g.state.nextDirection },
               tickNextDirection := g.state.nextDirection }) ∨
    (e = Event.restartClick ∧ g.state.gameOver = true ∧
      ∃ s1, resetGame g.state ds = some (s1, rest) ∧
        g1 = { state := s1, tickNextDirection := s1.nextDirection }) := by
  cases hgo : g.state.gameOver with
  | true =>
    cases e with
    | keydown key =>
      simp only [step, hgo, if_true, Option.some.injEq, Prod.mk.injEq] at hst
      exact Or.inl ⟨by simp, rfl, hst.1.symm, hst.2.symm⟩
    | interval =>
      simp only [step, tick, hgo, if_true, Option.some.injEq, Prod.mk.injEq] at hst
      exact Or.inl ⟨by simp, rfl, hst.1.symm, hst.2.symm⟩
    | restartClick =>
      simp only [step, hgo, if_true] at hst
      split at hst
      · cases hst
      · next s1 r hrs =>
        cases hst
        exact Or.inr (Or.inr (Or.inr (Or.inr ⟨rfl, rfl, s1, hrs, rfl⟩)))
  | false =>
    cases e with
    | keydown key =>
      simp only [step, hgo, Bool.false_eq_true, if_false, Option.some.injEq, Prod.mk.injEq] at hst
      exact Or.inr (Or.inr (Or.inl ⟨key, rfl, rfl, hst.1.symm, hst.2.symm⟩))
    | interval =>
      simp only [step, tick] at hst
      split at hst
      · next htrue => rw [hgo] at htrue; cases htrue
      · split at hst
        · cases hst
        · next s1 r hm =>
          cases hst
          exact Or.inr (Or.inr (Or.inr (Or.inl ⟨rfl, rfl, s1, hm, rfl⟩)))
    | restartClick =>
      simp only [step, hgo, Bool.false_eq_true, if_false, Option.some.injEq, Prod.mk.injEq] at hst
      exact Or.inr (Or.inl ⟨rfl, rfl, hst.1.symm, hst.2.symm⟩)

theorem moveSnake_speed (s : State) (ds : List Draw) (s1 : State) (rest : List Draw)
    (hr : moveSnake s ds = some (s1, rest)) :
    s1.speed = s.speed ∨ s1.speed = max 50 (s.speed - 5) := by
  obtain ⟨h, t, -, hcase⟩ := moveSnake_cases s ds s1 rest hr
  rcases hcase with ⟨-, rfl, -⟩ | ⟨-, -, rfl, -⟩ | ⟨-, -, newFood, ds1, p, b, -, -, rfl⟩
  · exact Or.inl rfl
  · exact Or.inl rfl
  · simp only [fed]
    split
    · exact Or.inr rfl
    · exact Or.inl rfl

theorem reachable_speed_bounds (g : Game) (hg : Reachable g) :
    50 ≤ g.state.speed ∧ g.state.speed ≤ 150 ∧ g.state.speed % 5 = 0 := by
  refine reachable_invariant (fun s => 50 ≤ s.speed ∧ s.speed ≤ 150 ∧ s.speed % 5 = 0)
    ?_ ?_ ?_ ?_ g hg
  · intro stored ds s rest hi
    obtain ⟨dt, ds1, bs, -, -, rfl⟩ := initialState_cases stored ds rest s hi
    norm_num
  · intro s ds s1 rest hP hm
    rcases moveSnake_speed s ds s1 rest hm with h | h
    · rw [h]; exact hP
    · rw [h]; omega
  · intro s ds s1 rest _ hrs
    obtain ⟨dt, ds1, bs, -, -, rfl⟩ := resetGame_cases s ds rest s1 hrs
    norm_num
  · intro s d hP
    exact hP

theorem handleKeyPress_speed (s : State) (key : Key) : (handleKeyPress s key).speed = s.speed := by
  obtain ⟨d, hd⟩ := handleKeyPress_frame s key
  rw [hd]

/-- C11: the tick interval is 150 after the first render; in every reachable game it lies
between 50 and 150 and is a multiple of 5; no tick increases it; restart always sets it to
150, and an event that raises it is a restart that brings it back to 150. -/
theorem C11_tick_interval (g : Game) (hg : Reachable g) :
    (∀ stored ds g0 rest, mount stored ds = some (g0, rest) → g0.state.speed = 150) ∧
    (50 ≤ g.state.speed ∧ g.state.speed ≤ 150 ∧ g.state.speed % 5 = 0) ∧
    (∀ ds g1 rest, step g Event.interval ds = some (g1, rest) →
      g1.state.speed ≤ g.state.speed) ∧
    (∀ s ds s1 rest, resetGame s ds = some (s1, rest) → s1.speed = 150) ∧
    (∀ e ds g1 rest, step g e ds = some (g1, rest) → g.state.speed < g1.state.speed →
      e = Event.restartClick ∧ g1.state.speed = 150) := by
  have hb := reachable_speed_bounds g hg
  have hreset : ∀ s ds s1 rest, resetGame s ds = some (s1, rest) → s1.speed = 150 := by
    intro s ds s1 rest hrs
    obtain ⟨dt, ds1, bs, -, -, rfl⟩ := resetGame_cases s ds rest s1 hrs
    rfl
  have hstep : ∀ e ds g1 rest, step g e ds = some (g1, rest) →
      g1.state.speed ≤ g.state.speed ∨ (e = Event.restartClick ∧ g1.state.speed = 150) := by
    intro e ds g1 rest hst
    rcases step_cases g e ds g1 rest hst with ⟨-, -, rfl, -⟩ | ⟨-, -, rfl, -⟩ |
      ⟨key, -, -, rfl, -⟩ | ⟨-, -, s1, hm, rfl⟩ | ⟨he, -, s1, hrs, rfl⟩
    · exact Or.inl (le_refl _)
    · exact Or.inl (le_refl _)
    · exact Or.inl (le_of_eq (handleKeyPress_speed _ _))
    · left
      rcases moveSnake_speed _ ds s1 rest hm with h | h
      · exact le_of_eq h
      · show s1.speed ≤ g.state.speed
        rw [h]
        show max 50 (g.state.speed - 5) ≤ g.state.speed
        omega
    · exact Or.inr ⟨he, hreset _ ds s1 rest hrs⟩
  refine ⟨?_, hb, ?_, hreset, ?_⟩
  · intro stored ds g0 rest hm
    unfold mount at hm
    split at hm
    · cases hm
    · next s r hi =>
      cases hm
      obtain ⟨dt, ds1, bs, -, -, rfl⟩ := initialState_cases stored ds _ s hi
      rfl
  · intro ds g1 rest hst
    rcases hstep Event.interval ds g1 rest hst with h | ⟨he, -⟩
    · exact h
    · cases he
  · intro e ds g1 rest hst hlt
    rcases hstep e ds g1 rest hst with h | h
    · omega
    · exact h

/-- Witness of C11: the reachable game at `exSpecial` has interval 150, and its
food-consuming tick lowers the interval to 145. -/
theorem C11_tick_interval_witness :
    (50 ≤ exSpecial.speed ∧ exSpecial.speed ≤ 150 ∧ exSpecial.speed % 5 = 0) ∧
    ∃ g1 rest, step { state := exSpecial, tickNextDirection := Direction.RIGHT } Event.interval
        foodDraws = some (g1, rest) ∧ g1.state.speed = 145 ∧ g1.state.speed ≤ exSpecial.speed := by
  have h := C11_tick_interval { state := exSpecial, tickNextDirection := Direction.RIGHT }
    exSpecial_reachable
  have hst : ∃ g1 rest, step { state := exSpecial, tickNextDirection := Direction.RIGHT }
      Event.interval foodDraws = some (g1, rest) ∧ g1.state.speed = 145 := ⟨_, _, rfl, rfl⟩
  obtain ⟨g1, rest, hst, h145⟩ := hst
  exact ⟨h.2.1, g1, rest, hst, h145, h.2.2.1 foodDraws g1 rest hst⟩

theorem getBarrierPositions_zero (ds rest : List Draw) (bs : List Cell)
    (hr : getBarrierPositions 0 ds = some (bs, rest)) :
    ∃ c, bs = [c] ∧ 0 ≤ c.x ∧ c.x < 20 ∧ 0 ≤ c.y ∧ c.y < 20 := by
  have h1 : getBarrierPositions 0 ds = barrierLoop 1 [] ds := rfl
  rw [h1] at hr
  simp only [barrierLoop] at hr
  cases hd : drawBarrier [] ds with
  | none => rw [hd] at hr; cases hr
  | some r =>
    obtain ⟨c, ds1⟩ := r
    rw [hd] at hr
    simp only [List.nil_append, Option.some.injEq, Prod.mk.injEq] at hr
    obtain ⟨-, hb⟩ := drawBarrier_spec [] ds ds1 c hd
    exact ⟨c, hr.1.symm, hb⟩

theorem resetGame_eq_initialState (s : State) (ds : List Draw) :
    resetGame s ds = initialState s.highScore ds := by
  unfold resetGame initialState
  cases ds with
  | nil => rfl
  | cons dt ds1 =>
    cases hq : getBarrierPositions 0 ds1 with
    | none => simp only [hq]
    | some r => simp only [hq]

theorem resetGame_returns (s : State) : ∃ ds s1 rest, resetGame s ds = some (s1, rest) := by
  have h := getBarrierPositions_rowDraws 0
  cases hq : getBarrierPositions 0 rowDraws with
  | none => rw [hq] at h; cases h
  | some r =>
    obtain ⟨bs, r2⟩ := r
    have e : (resetGame s (coordDraw 0 (by decide) :: rowDraws)).isSome = true := by
      simp only [resetGame, hq]
      rfl
    cases hq2 : resetGame s (coordDraw 0 (by decide) :: rowDraws) with
    | none => rw [hq2] at e; cases e
    | some p => exact ⟨_, p.1, p.2, hq2⟩

theorem resetGame_three (s : State) (dt dx dy : Draw) (rest : List Draw) :
    resetGame s (dt :: dx :: dy :: rest) =
      some ({ snake := [{ x := 5, y := 5 }]
              food := { x := 10, y := 10, type := getFoodType dt }
              direction := Direction.RIGHT
              nextDirection := Direction.RIGHT
              gameOver := false
              score := 0
              phase := 0
              barriers := [{ x := randCoord dx, y := randCoord dy }]
              highScore := s.highScore
              speed := 150 }, rest) := by
  rfl

theorem resetGame_none_iff (s : State) (ds : List Draw) :
    resetGame s ds = none ↔ ds.length < 3 := by
  match ds with
  | [] => simp [resetGame]
  | [dt] => simp [resetGame, getBarrierPositions, barrierLoop, drawBarrier]
  | [dt, dx] => simp [resetGame, getBarrierPositions, barrierLoop, drawBarrier]
  | dt :: dx :: dy :: rest =>
    rw [resetGame_three]
    simp

/-- C12: for every state, restart returns on every list of at least three draws (and on no
shorter one), consuming the kind draw and one barrier sample; the result has snake [(5,5)],
food cell (10,10) with the drawn kind, direction and pending direction RIGHT, gameOver
false, score 0, phase 0, exactly 1 barrier (the sampled cell), tick interval 150 and the
highScore of before; it is the first-render state for the same stored highScore and draws,
and a second restart changes nothing but the food kind and the barrier cell. -/
theorem C12_restart (s : State) (dt dx dy : Draw) (rest : List Draw) :
    ∃ s1, resetGame s (dt :: dx :: dy :: rest) = some (s1, rest) ∧
      (s1.snake = [{ x := 5, y := 5 }] ∧ s1.food.x = 10 ∧ s1.food.y = 10 ∧
        s1.food.type = getFoodType dt ∧
        s1.direction = Direction.RIGHT ∧ s1.nextDirection = Direction.RIGHT ∧
        s1.gameOver = false ∧ s1.score = 0 ∧ s1.phase = 0 ∧
        s1.barriers = [{ x := randCoord dx, y := randCoord dy }] ∧ s1.barriers.length = 1 ∧
        s1.speed = 150 ∧ s1.highScore = s.highScore) ∧
      initialState s.highScore (dt :: dx :: dy :: rest) = some (s1, rest) ∧
      (∀ (dt2 dx2 dy2 : Draw) (rest2 : List Draw),
        resetGame s1 (dt2 :: dx2 :: dy2 :: rest2) =
          some ({ s1 with food := { x := 10, y := 10, type := getFoodType dt2 },
                          barriers := [{ x := randCoord dx2, y := randCoord dy2 }] }, rest2)) ∧
      (∀ ds : List Draw, resetGame s ds = none ↔ ds.length < 3) ∧
      (∀ ds : List Draw, resetGame s1 ds = none ↔ ds.length < 3) := by
  refine ⟨_, resetGame_three s dt dx dy rest,
    ⟨rfl, rfl, rfl, rfl, rfl, rfl, rfl, rfl, rfl, rfl, rfl, rfl, rfl⟩, ?_, ?_,
    resetGame_none_iff s, resetGame_none_iff _⟩
  · rw [← resetGame_eq_initialState]
    exact resetGame_three s dt dx dy rest
  · intro dt2 dx2 dy2 rest2
    exact resetGame_three _ dt2 dx2 dy2 rest2

/-- Witness of C12: restarting `exOver` (score 12, phase 2, highScore 12, interval 135) with
the kind draw 1/2 and the barrier sample (7,8) gives the fresh state with highScore 12. -/
theorem C12_restart_witness :
    ∃ s1, resetGame exOver restartDraws = some (s1, []) ∧
      s1.snake = [{ x := 5, y := 5 }] ∧ s1.score = 0 ∧ s1.phase = 0 ∧ s1.speed = 150 ∧
      s1.barriers = [{ x := 7, y := 8 }] ∧ s1.highScore = 12 := by
  obtain ⟨s1, hr, hf, -⟩ := C12_restart exOver (coordDraw 10 (by decide)) (coordDraw 7 (by decide))
    (coordDraw 8 (by decide)) []
  exact ⟨s1, hr, hf.1, hf.2.2.2.2.2.2.2.1, hf.2.2.2.2.2.2.2.2.1, hf.2.2.2.2.2.2.2.2.2.2.2.1,
    hf.2.2.2.2.2.2.2.2.2.1, hf.2.2.2.2.2.2.2.2.2.2.2.2⟩

theorem head_cons_dropLast_nodup (s : State) (c : Cell)
    (hc : checkCollision s c = false) (hnd : s.snake.dropLast.Nodup) :
    (c :: s.snake.dropLast).Nodup := by
  have hn : ¬ (checkCollision s c = true) := by simp [hc]
  rw [checkCollision_iff] at hn
  simp only [not_or] at hn
  exact List.nodup_cons.mpr ⟨fun hin => hn.2.2.2.2.1 (List.dropLast_subset _ hin), hnd⟩

theorem append_getLast_shape (L : List Cell) (hL : L ≠ []) :
    L ++ [L.getLast hL] = L.dropLast ++ [L.getLast hL, L.getLast hL] ∧
    (L ++ [L.getLast hL]).dropLast = L := by
  constructor
  · have h := List.dropLast_append_getLast hL
    calc L ++ [L.getLast hL] = (L.dropLast ++ [L.getLast hL]) ++ [L.getLast hL] := by rw [h]
      _ = L.dropLast ++ [L.getLast hL, L.getLast hL] := by simp
  · exact List.dropLast_concat

theorem fed_snake_shape (s : State) (c : Cell) (f : Food) (p : Int) (b : List Cell) :
    (fed s c f p b).snake =
      (c :: s.snake.dropLast).dropLast ++
        [(c :: s.snake.dropLast).getLast (List.cons_ne_nil _ _),
         (c :: s.snake.dropLast).getLast (List.cons_ne_nil _ _)] ∧
    (fed s c f p b).snake.dropLast = c :: s.snake.dropLast :=
  append_getLast_shape (c :: s.snake.dropLast) (List.cons_ne_nil _ _)

theorem reachable_snake_dropLast_nodup (g : Game) (hg : Reachable g) :
    g.state.snake.dropLast.Nodup := by
  refine reachable_invariant (fun s => s.snake.dropLast.Nodup) ?_ ?_ ?_ ?_ g hg
  · intro stored ds s rest hi
    obtain ⟨dt, ds1, bs, -, -, rfl⟩ := initialState_cases stored ds rest s hi
    simp [INITIAL_SNAKE]
  · intro s ds s1 rest hP hm
    obtain ⟨h, t, -, hcase⟩ := moveSnake_cases s ds s1 rest hm
    rcases hcase with ⟨-, rfl, -⟩ | ⟨hc, -, rfl, -⟩ | ⟨hc, -, newFood, ds1, p, b, -, -, rfl⟩
    · exact hP
    · exact (head_cons_dropLast_nodup s _ hc hP).sublist (List.dropLast_sublist _)
    · rw [(fed_snake_shape s _ newFood p b).2]
      exact head_cons_dropLast_nodup s _ hc hP
  · intro s ds s1 rest _ hrs
    obtain ⟨dt, ds1, bs, -, -, rfl⟩ := resetGame_cases s ds rest s1 hrs
    simp [INITIAL_SNAKE]
  · intro s d hP
    exact hP

/-- C13, as stated, fails: the game `exFoodOnHead`, reached by eating the first food with a
snake of length 1, has the snake [(10,10), (10,10)], two segments in one cell. -/
theorem C13_duplicate_segment :
    Reachable exFoodOnHead ∧
    exFoodOnHead.state.snake = [{ x := 10, y := 10 }, { x := 10, y := 10 }] ∧
    ¬ exFoodOnHead.state.snake.Nodup :=
  ⟨exFoodOnHead_reachable, rfl, by decide⟩

/-- C13, amended: in every reachable game the segments of the snake other than the last one
are pairwise distinct; from a state with that property, a tick that neither collides nor
eats yields a snake with pairwise distinct segments, and a food-consuming tick yields a
snake that ends in two equal segments and has pairwise distinct segments before the last. -/
theorem C13_distinct_but_last (g : Game) (hg : Reachable g) (s : State) (ds : List Draw)
    (h : Cell) (t : List Cell) (c : Cell) (hs : s.snake = h :: t)
    (hd : c = (match s.nextDirection with
      | Direction.UP => { x := h.x, y := h.y - 1 }
      | Direction.DOWN => { x := h.x, y := h.y + 1 }
      | Direction.LEFT => { x := h.x - 1, y := h.y }
      | Direction.RIGHT => { x := h.x + 1, y := h.y }))
    (hfree : ¬ (c.x < 0 ∨ c.x ≥ 20 ∨ c.y < 0 ∨ c.y ≥ 20 ∨ c ∈ s.snake ∨ c ∈ s.barriers))
    (hnd : s.snake.dropLast.Nodup)
    (s1 : State) (rest : List Draw) (hr : moveSnake s ds = some (s1, rest)) :
    g.state.snake.dropLast.Nodup ∧
    (c ≠ { x := s.food.x, y := s.food.y } → s1.snake.Nodup) ∧
    (c = { x := s.food.x, y := s.food.y } →
      ∃ l x, s1.snake = l ++ [x, x] ∧ (l ++ [x]).Nodup) := by
  refine ⟨reachable_snake_dropLast_nodup g hg, ?_, ?_⟩
  all_goals
    have hd1 : c = moveHead s.nextDirection h := by
      rw [hd]; cases s.nextDirection <;> rfl
    clear hd
    subst hd1
    rw [← checkCollision_iff, Bool.not_eq_true] at hfree
  · intro hne
    have hf : ¬ ((moveHead s.nextDirection h).x = s.food.x ∧
        (moveHead s.nextDirection h).y = s.food.y) :=
      fun hf => hne ((food_cell_iff _ _).mp hf)
    rw [moveSnake_plain s ds h t hs hfree hf] at hr
    cases hr
    exact head_cons_dropLast_nodup s _ hfree hnd
  · intro hfood
    have hf := (food_cell_iff _ _).mpr hfood
    obtain ⟨newFood, ds1, p, b, -, -, rfl⟩ := moveSnake_food s ds h t hs hfree hf s1 rest hr
    refine ⟨_, _, (fed_snake_shape s _ newFood p b).1, ?_⟩
    rw [List.dropLast_append_getLast]
    exact head_cons_dropLast_nodup s _ hfree hnd

/-- Witness of C13 as amended: the food-consuming tick of `exNormal` (snake [(9,10)]) yields
the snake [(10,10), (10,10)], which ends in two equal segments. -/
theorem C13_distinct_but_last_witness :
    ∃ s1 rest, moveSnake exNormal foodDraws = some (s1, rest) ∧
      s1.snake = [{ x := 10, y := 10 }, { x := 10, y := 10 }] ∧
      ∃ l x, s1.snake = l ++ [x, x] ∧ (l ++ [x]).Nodup := by
  have hr : ∃ s1 rest, moveSnake exNormal foodDraws = some (s1, rest) ∧
      s1.snake = [{ x := 10, y := 10 }, { x := 10, y := 10 }] := ⟨_, _, rfl, rfl⟩
  obtain ⟨s1, rest, hr, hsn⟩ := hr
  have h := C13_distinct_but_last { state := exSpecial, tickNextDirection := Direction.RIGHT }
    exSpecial_reachable exNormal foodDraws { x := 9, y := 10 } [] { x := 10, y := 10 } rfl rfl
    (by decide) (by decide) s1 rest hr
  exact ⟨s1, rest, hr, hsn, h.2.2 rfl⟩

theorem exFresh_reachable : Reachable exFresh :=
  Reachable.mount 0 [coordDraw 10 (by decide), coordDraw 0 (by decide), coordDraw 0 (by decide)]
    [] exFresh (by decide)

theorem exReversed_reachable : Reachable exReversed :=
  run_reachable reverseEvents exFresh exReversed exFresh_reachable (by decide)

/-- The guard of `handleKeyPress`: a key asking for the opposite of the current direction
leaves the pending direction as it is. -/
theorem handleKeyPress_opposite (s : State) :
    (s.direction = Direction.DOWN → handleKeyPress s Key.ArrowUp = s) ∧
    (s.direction = Direction.UP → handleKeyPress s Key.ArrowDown = s) ∧
    (s.direction = Direction.RIGHT → handleKeyPress s Key.ArrowLeft = s) ∧
    (s.direction = Direction.LEFT → handleKeyPress s Key.ArrowRight = s) := by
  refine ⟨?_, ?_, ?_, ?_⟩ <;> intro h <;> simp [handleKeyPress, h]

/-- C14: the game `exReversed` is reachable from the first render by ArrowUp, a tick,
ArrowDown, a tick; its current direction is UP and its pending direction is DOWN, the exact
opposite, and its next tick moves the head down from (6,4) to (6,5). -/
theorem C14_pending_opposite_reachable :
    run exFresh reverseEvents = some exReversed ∧ Reachable exReversed ∧
    exReversed.state.direction = Direction.UP ∧
    exReversed.state.nextDirection = Direction.DOWN ∧
    ∃ g1, tick exReversed [] = some (g1, []) ∧ g1.state.snake = [{ x := 6, y := 5 }] ∧
      g1.state.direction = Direction.DOWN :=
  ⟨by decide, exReversed_reachable, rfl, rfl, _, rfl, rfl, rfl⟩

theorem moveSnake_gameOver (s : State) (ds : List Draw) (s1 : State) (rest : List Draw)
    (hr : moveSnake s ds = some (s1, rest)) : s1.gameOver = true ∨ s1.gameOver = s.gameOver := by
  obtain ⟨h, t, -, hcase⟩ := moveSnake_cases s ds s1 rest hr
  rcases hcase with ⟨-, rfl, -⟩ | ⟨-, -, rfl, -⟩ | ⟨-, -, newFood, ds1, p, b, -, -, rfl⟩
  · exact Or.inl rfl
  · exact Or.inr rfl
  · exact Or.inr rfl

/-- C15: in a game that is over, a tick and a key press return the game unchanged and
consume no draw; `moveSnake` itself never clears gameOver; an event that leads to a game
that is not over is a Restart click, and every Restart click that returns does so. -/
theorem C15_game_over_terminal (g : Game) (hgo : g.state.gameOver = true) :
    (∀ ds, tick g ds = some (g, ds)) ∧
    (∀ ds, step g Event.interval ds = some (g, ds)) ∧
    (∀ key ds, step g (Event.keydown key) ds = some (g, ds)) ∧
    (∀ ds s1 rest, moveSnake g.state ds = some (s1, rest) → s1.gameOver = true) ∧
    (∀ e ds g1 rest, step g e ds = some (g1, rest) → g1.state.gameOver = false →
      e = Event.restartClick) ∧
    (∀ ds g1 rest, step g Event.restartClick ds = some (g1, rest) →
      g1.state.gameOver = false) := by
  have htick : ∀ ds, tick g ds = some (g, ds) := by
    intro ds
    simp only [tick, hgo, if_true]
  refine ⟨htick, fun ds => htick ds, ?_, ?_, ?_, ?_⟩
  · intro key ds
    simp only [step, hgo, if_true]
  · intro ds s1 rest hr
    rcases moveSnake_gameOver g.state ds s1 rest hr with h | h
    · exact h
    · rw [h]; exact hgo
  · intro e ds g1 rest hst hfalse
    rcases step_cases g e ds g1 rest hst with ⟨-, -, rfl, -⟩ | ⟨he, -, -, -⟩ |
      ⟨key, -, hgf, -, -⟩ | ⟨-, hgf, -⟩ | ⟨he, -, -⟩
    · rw [hgo] at hfalse; cases hfalse
    · exact he
    · rw [hgo] at hgf; cases hgf
    · rw [hgo] at hgf; cases hgf
    · exact he
  · intro ds g1 rest hst
    rcases step_cases g _ ds g1 rest hst with ⟨hne, -, -, -⟩ | ⟨-, hgf, -, -⟩ |
      ⟨key, he, -, -, -⟩ | ⟨he, -, -⟩ | ⟨-, -, s1, hrs, rfl⟩
    · exact absurd rfl hne
    · rw [hgo] at hgf; cases hgf
    · cases he
    · cases he
    · obtain ⟨dt, ds1, bs, -, -, rfl⟩ := resetGame_cases _ ds rest s1 hrs
      rfl

/-- Witness of C15: in the finished game `exOverGame` a tick changes nothing, and Restart with
`restartDraws` gives a game that is not over. -/
theorem C15_game_over_terminal_witness :
    exOverGame.state.gameOver = true ∧ tick exOverGame foodDraws = some (exOverGame, foodDraws) ∧
    ∃ g1, step exOverGame Event.restartClick restartDraws = some (g1, []) ∧
      g1.state.gameOver = false := by
  have h := C15_game_over_terminal exOverGame rfl
  have hst : ∃ g1, step exOverGame Event.restartClick restartDraws = some (g1, []) := ⟨_, rfl⟩
  obtain ⟨g1, hst⟩ := hst
  exact ⟨rfl, h.1 foodDraws, g1, hst, h.2.2.2.2.2 restartDraws g1 [] hst⟩

theorem moveSnake_highScore (s : State) (ds : List Draw) (s1 : State) (rest : List Draw)
    (hr : moveSnake s ds = some (s1, rest)) :
    s1.highScore = s.highScore ∨ (s.score > s.highScore ∧ s1.highScore = s.score) := by
  obtain ⟨h, t, -, hcase⟩ := moveSnake_cases s ds s1 rest hr
  rcases hcase with ⟨-, rfl, -⟩ | ⟨-, -, rfl, -⟩ | ⟨-, -, newFood, ds1, p, b, -, -, rfl⟩
  · simp only [collided]
    split
    · next hgt => exact Or.inr ⟨hgt, rfl⟩
    · exact Or.inl rfl
  · exact Or.inl rfl
  · exact Or.inl rfl

theorem handleKeyPress_highScore (s : State) (key : Key) :
    (handleKeyPress s key).highScore = s.highScore := by
  obtain ⟨d, hd⟩ := handleKeyPress_frame s key
  rw [hd]

theorem step_highScore (g : Game) (e : Event) (ds : List Draw) (g1 : Game) (rest : List Draw)
    (hst : step g e ds = some (g1, rest)) : g.state.highScore ≤ g1.state.highScore := by
  rcases step_cases g e ds g1 rest hst with ⟨-, -, rfl, -⟩ | ⟨-, -, rfl, -⟩ |
    ⟨key, -, -, rfl, -⟩ | ⟨-, -, s1, hm, rfl⟩ | ⟨-, -, s1, hrs, rfl⟩
  · exact le_refl _
  · exact le_refl _
  · exact le_of_eq (handleKeyPress_highScore _ _).symm
  · rcases moveSnake_highScore _ ds s1 rest hm with h | ⟨hgt, h⟩
    · exact le_of_eq h.symm
    · show g.state.highScore ≤ s1.highScore
      rw [h]
      exact le_of_lt hgt
  · obtain ⟨dt, ds1, bs, -, -, rfl⟩ := resetGame_cases _ ds rest s1 hrs
    exact le_refl _

theorem run_highScore (es : List (Event × List Draw)) :
    ∀ g g1 : Game, run g es = some g1 → g.state.highScore ≤ g1.state.highScore := by
  induction es with
  | nil =>
    intro g g1 hr
    simp only [run, Option.some.injEq] at hr
    rw [hr]
  | cons e es ih =>
    intro g g1 hr
    obtain ⟨ev, ds⟩ := e
    simp only [run] at hr
    cases hst : step g ev ds with
    | none => rw [hst] at hr; cases hr
    | some r =>
      rw [hst] at hr
      exact le_trans (step_highScore g ev ds r.1 r.2 hst) (ih r.1 g1 hr)

/-- C16: a tick whose new head does not collide leaves highScore unchanged; a colliding tick
leaves it unchanged when score is at most highScore and sets it to score when score is
greater; restart leaves it unchanged; and along any run of key presses, ticks and restarts
highScore never decreases. -/
theorem C16_high_score (s : State) (ds : List Draw) (h : Cell) (t : List Cell)
    (c : Cell) (hs : s.snake = h :: t)
    (hd : c = (match s.nextDirection with
      | Direction.UP => { x := h.x, y := h.y - 1 }
      | Direction.DOWN => { x := h.x, y := h.y + 1 }
      | Direction.LEFT => { x := h.x - 1, y := h.y }
      | Direction.RIGHT => { x := h.x + 1, y := h.y }))
    (s1 : State) (rest : List Draw) (hr : moveSnake s ds = some (s1, rest)) :
    (¬ (c.x < 0 ∨ c.x ≥ 20 ∨ c.y < 0 ∨ c.y ≥ 20 ∨ c ∈ s.snake ∨ c ∈ s.barriers) →
      s1.highScore = s.highScore) ∧
    ((c.x < 0 ∨ c.x ≥ 20 ∨ c.y < 0 ∨ c.y ≥ 20 ∨ c ∈ s.snake ∨ c ∈ s.barriers) →
      (s.score ≤ s.highScore → s1.highScore = s.highScore) ∧
      (s.score > s.highScore → s1.highScore = s.score)) ∧
    (∀ ds2 s2 rest2, resetGame s ds2 = some (s2, rest2) → s2.highScore = s.highScore) ∧
    (∀ (g g1 : Game) (es : List (Event × List Draw)), run g es = some g1 →
      g.state.highScore ≤ g1.state.highScore) := by
  have hd1 : c = moveHead s.nextDirection h := by
    rw [hd]; cases s.nextDirection <;> rfl
  clear hd
  subst hd1
  rw [← checkCollision_iff]
  refine ⟨?_, ?_, ?_, fun g g1 es => run_highScore es g g1⟩
  · intro hfree
    rw [Bool.not_eq_true] at hfree
    by_cases hf : (moveHead s.nextDirection h).x = s.food.x ∧
        (moveHead s.nextDirection h).y = s.food.y
    · obtain ⟨newFood, ds1, p, b, -, -, rfl⟩ := moveSnake_food s ds h t hs hfree hf s1 rest hr
      rfl
    · rw [moveSnake_plain s ds h t hs hfree hf] at hr
      cases hr
      rfl
  · intro hit
    rw [moveSnake_collision s ds h t hs hit] at hr
    cases hr
    constructor
    · intro hle
      simp only [collided]
      rw [if_neg (not_lt.mpr hle)]
    · intro hgt
      simp only [collided]
      rw [if_pos hgt]
  · intro ds2 s2 rest2 hrs
    obtain ⟨dt, ds1, bs, -, -, rfl⟩ := resetGame_cases s ds2 rest2 s2 hrs
    rfl

/-- Witness of C16: the colliding tick of `exSelfHit` (score 7, highScore 3) sets highScore
to 7, and restarting `exSelfHit` keeps highScore 3. -/
theorem C16_high_score_witness :
    (∃ s1, moveSnake exSelfHit [] = some (s1, []) ∧ s1.highScore = 7) ∧
    ∃ s2, resetGame exSelfHit restartDraws = some (s2, []) ∧ s2.highScore = 3 := by
  have hr : ∃ s1, moveSnake exSelfHit [] = some (s1, []) := ⟨_, rfl⟩
  obtain ⟨s1, hr⟩ := hr
  have hrs : ∃ s2, resetGame exSelfHit restartDraws = some (s2, []) := ⟨_, rfl⟩
  obtain ⟨s2, hrs⟩ := hrs
  have h := C16_high_score exSelfHit [] { x := 5, y := 5 }
    [{ x := 5, y := 6 }, { x := 6, y := 5 }] { x := 6, y := 5 } rfl rfl s1 [] hr
  exact ⟨⟨s1, hr, (h.2.1 (by decide)).2 (by decide)⟩, s2, hrs, h.2.2.1 restartDraws s2 [] hrs⟩

theorem getBarrierPositions_spec (phase : Int) (ds rest : List Draw) (bs : List Cell)
    (hr : getBarrierPositions phase ds = some (bs, rest)) :
    bs.length = (min (phase + 1) 10).toNat ∧ bs.Nodup ∧
    ∀ c ∈ bs, 0 ≤ c.x ∧ c.x < 20 ∧ 0 ≤ c.y ∧ c.y < 20 := by
  unfold getBarrierPositions at hr
  obtain ⟨hlen, hnd, hin⟩ := barrierLoop_spec _ [] bs ds rest hr
  simp only [List.length_nil, Nat.zero_add] at hlen
  exact ⟨hlen, hnd List.nodup_nil, hin (fun c hc => absurd hc (List.not_mem_nil c))⟩

theorem reachable_barriers (g : Game) (hg : Reachable g) :
    0 ≤ g.state.phase ∧ (g.state.barriers.length : Int) = min (g.state.phase + 1) 10 ∧
    g.state.barriers.Nodup := by
  refine reachable_invariant
    (fun s => 0 ≤ s.phase ∧ (s.barriers.length : Int) = min (s.phase + 1) 10 ∧ s.barriers.Nodup)
    ?_ ?_ ?_ ?_ g hg
  · intro stored ds s rest hi
    obtain ⟨dt, ds1, bs, -, hb, rfl⟩ := initialState_cases stored ds rest s hi
    obtain ⟨hlen, hnd, -⟩ := getBarrierPositions_spec 0 ds1 rest bs hb
    refine ⟨le_refl _, ?_, hnd⟩
    show (bs.length : Int) = min (0 + 1) 10
    rw [hlen]; norm_num
  · intro s ds s1 rest hP hm
    obtain ⟨h, t, -, hcase⟩ := moveSnake_cases s ds s1 rest hm
    rcases hcase with ⟨-, rfl, -⟩ | ⟨-, -, rfl, -⟩ | ⟨-, -, newFood, ds1, p, b, -, hp, rfl⟩
    · exact hP
    · exact hP
    · rcases phased_cases s ds1 rest p b hp with ⟨-, -, hp1, hgb⟩ | ⟨hp1, hb1, -⟩
      · obtain ⟨hlen, hnd, -⟩ := getBarrierPositions_spec _ ds1 rest b hgb
        subst hp1
        refine ⟨?_, ?_, hnd⟩
        · show 0 ≤ s.phase + 1
          omega
        · show (b.length : Int) = min (s.phase + 1 + 1) 10
          rw [hlen]
          omega
      · subst hp1 hb1
        exact hP
  · intro s ds s1 rest _ hrs
    obtain ⟨dt, ds1, bs, -, hb, rfl⟩ := resetGame_cases s ds rest s1 hrs
    obtain ⟨hlen, hnd, -⟩ := getBarrierPositions_spec 0 ds1 rest bs hb
    refine ⟨le_refl _, ?_, hnd⟩
    show (bs.length : Int) = min (0 + 1) 10
    rw [hlen]; norm_num
  · intro s d hP
    exact hP

/-- C18: in every reachable game the barrier list has exactly min(phase+1, 10) cells for the
current phase and no cell occurs twice in it: 1 barrier at phase 0, 2 at phase 1, and 10
from phase 9 up to the last phase 14. -/
theorem C18_barrier_count (g : Game) (hg : Reachable g) :
    (g.state.barriers.length : Int) = min (g.state.phase + 1) 10 ∧
    g.state.barriers.Nodup ∧
    (g.state.phase = 0 → g.state.barriers.length = 1) ∧
    (g.state.phase = 1 → g.state.barriers.length = 2) ∧
    (9 ≤ g.state.phase → g.state.phase ≤ 14 ∧ g.state.barriers.length = 10) := by
  obtain ⟨h0, hlen, hnd⟩ := reachable_barriers g hg
  have h14 := (reachable_phase_bounds g hg).2
  refine ⟨hlen, hnd, ?_, ?_, ?_⟩
  · intro hp; omega
  · intro hp; omega
  · intro hp; exact ⟨h14, by omega⟩

/-- Witness of C18: the reachable game `exBarrierOnFood` is at phase 1 and has the 2 distinct
barriers (3,4) and (11,10). -/
theorem C18_barrier_count_witness :
    exBarrierOnFood.state.phase = 1 ∧ exBarrierOnFood.state.barriers.length = 2 ∧
    exBarrierOnFood.state.barriers.Nodup :=
  have h := C18_barrier_count exBarrierOnFood exBarrierOnFood_reachable
  ⟨rfl, h.2.2.2.1 rfl, h.2.1⟩

theorem reachable_score_phase (g : Game) (hg : Reachable g) :
    g.state.score ≥ 5 * g.state.phase := by
  refine reachable_invariant (fun s => s.score ≥ 5 * s.phase) ?_ ?_ ?_ ?_ g hg
  · intro stored ds s rest hi
    obtain ⟨dt, ds1, bs, -, -, rfl⟩ := initialState_cases stored ds rest s hi
    norm_num
  · intro s ds s1 rest hP hm
    obtain ⟨h, t, -, hcase⟩ := moveSnake_cases s ds s1 rest hm
    rcases hcase with ⟨-, rfl, -⟩ | ⟨-, -, rfl, -⟩ | ⟨-, -, newFood, ds1, p, b, -, hp, rfl⟩
    · exact hP
    · exact hP
    · have hinc : (1 : Int) ≤ (if s.food.type = FoodType.special then SPECIAL_FOOD_SCORE else 1) := by
        split
        · simp [SPECIAL_FOOD_SCORE]
        · exact le_refl _
      show s.score + (if s.food.type = FoodType.special then SPECIAL_FOOD_SCORE else 1) ≥ 5 * p
      rcases phased_cases s ds1 rest p b hp with ⟨hge, -, hp1, -⟩ | ⟨hp1, -, -⟩
      · subst hp1
        have hP1 : s.score ≥ 5 * s.phase := hP
        omega
      · subst hp1
        have hP1 : s.score ≥ 5 * s.phase := hP
        omega
  · intro s ds s1 rest _ hrs
    obtain ⟨dt, ds1, bs, -, -, rfl⟩ := resetGame_cases s ds rest s1 hrs
    norm_num
  · intro s d hP
    exact hP

theorem exLag_reachable : Reachable exLag :=
  run_reachable [(Event.interval, foodDraws)] _ _ exSpecial_reachable (by decide)

/-- C20: in every reachable game the score is at least 5 times the phase; and the phase can
lag behind: the reachable game `exLag` has score 5 and phase 0, below
min(floor(score/5), 14) = 1. -/
theorem C20_score_phase (g : Game) (hg : Reachable g) :
    g.state.score ≥ 5 * g.state.phase ∧
    (Reachable exLag ∧ exLag.state.phase < min (exLag.state.score / 5) 14) :=
  ⟨reachable_score_phase g hg, exLag_reachable, by decide⟩

/-- Witness of C20: the reachable game `exBarrierOnFood` has score 6 and phase 1. -/
theorem C20_score_phase_witness :
    exBarrierOnFood.state.score = 6 ∧ exBarrierOnFood.state.phase = 1 ∧
    exBarrierOnFood.state.score ≥ 5 * exBarrierOnFood.state.phase :=
  ⟨rfl, rfl, (C20_score_phase exBarrierOnFood exBarrierOnFood_reachable).1⟩

theorem reachable_in_grid (g : Game) (hg : Reachable g) :
    g.state.snake ≠ [] ∧
    (∀ c ∈ g.state.snake, 0 ≤ c.x ∧ c.x < 20 ∧ 0 ≤ c.y ∧ c.y < 20) ∧
    (0 ≤ g.state.food.x ∧ g.state.food.x < 20 ∧ 0 ≤ g.state.food.y ∧ g.state.food.y < 20) ∧
    (∀ c ∈ g.state.barriers, 0 ≤ c.x ∧ c.x < 20 ∧ 0 ≤ c.y ∧ c.y < 20) := by
  refine reachable_invariant
    (fun s => s.snake ≠ [] ∧
      (∀ c ∈ s.snake, 0 ≤ c.x ∧ c.x < 20 ∧ 0 ≤ c.y ∧ c.y < 20) ∧
      (0 ≤ s.food.x ∧ s.food.x < 20 ∧ 0 ≤ s.food.y ∧ s.food.y < 20) ∧
      (∀ c ∈ s.barriers, 0 ≤ c.x ∧ c.x < 20 ∧ 0 ≤ c.y ∧ c.y < 20))
    ?_ ?_ ?_ ?_ g hg
  · intro stored ds s rest hi
    obtain ⟨dt, ds1, bs, -, hb, rfl⟩ := initialState_cases stored ds rest s hi
    obtain ⟨-, -, hin⟩ := getBarrierPositions_spec 0 ds1 rest bs hb
    refine ⟨by simp [INITIAL_SNAKE], ?_, by simp [INITIAL_FOOD], hin⟩
    intro c hc
    simp only [INITIAL_SNAKE, List.mem_singleton] at hc
    subst hc
    norm_num
  · intro s ds s1 rest hP hm
    obtain ⟨hne, hsn, hfd, hba⟩ := hP
    obtain ⟨h, t, -, hcase⟩ := moveSnake_cases s ds s1 rest hm
    have hhead : checkCollision s (moveHead s.nextDirection h) = false →
        0 ≤ (moveHead s.nextDirection h).x ∧ (moveHead s.nextDirection h).x < 20 ∧
        0 ≤ (moveHead s.nextDirection h).y ∧ (moveHead s.nextDirection h).y < 20 := by
      intro hc
      have hn : ¬ (checkCollision s (moveHead s.nextDirection h) = true) := by simp [hc]
      rw [checkCollision_iff] at hn
      simp only [not_or, not_lt, ge_iff_le, not_le] at hn
      exact ⟨hn.1, hn.2.1, hn.2.2.1, hn.2.2.2.1⟩
    rcases hcase with ⟨-, rfl, -⟩ | ⟨hc, -, rfl, -⟩ | ⟨hc, -, newFood, ds1, p, b, hgf, hp, rfl⟩
    · exact ⟨hne, hsn, hfd, hba⟩
    · refine ⟨List.cons_ne_nil _ _, ?_, hfd, hba⟩
      intro c hcm
      simp only [moved, List.mem_cons] at hcm
      rcases hcm with rfl | hcm
      · exact hhead hc
      · exact hsn c (List.dropLast_subset _ hcm)
    · refine ⟨?_, ?_, generateFood_bounds s ds ds1 newFood hgf, ?_⟩
      · simp [fed]
      · intro c hcm
        rcases fed_snake_subset s _ newFood p b c hcm with rfl | hin
        · exact hhead hc
        · exact hsn c hin
      · rcases phased_cases s ds1 rest p b hp with ⟨-, -, -, hgb⟩ | ⟨-, hb1, -⟩
        · exact (getBarrierPositions_spec _ ds1 rest b hgb).2.2
        · subst hb1
          exact hba
  · intro s ds s1 rest _ hrs
    obtain ⟨dt, ds1, bs, -, hb, rfl⟩ := resetGame_cases s ds rest s1 hrs
    obtain ⟨-, -, hin⟩ := getBarrierPositions_spec 0 ds1 rest bs hb
    refine ⟨by simp [INITIAL_SNAKE], ?_, by simp [INITIAL_FOOD], hin⟩
    intro c hc
    simp only [INITIAL_SNAKE, List.mem_singleton] at hc
    subst hc
    norm_num
  · intro s d hP
    exact hP

theorem tick_returns (g : Game) (hne : g.state.snake ≠ []) :
    ∃ ds g1 rest, tick g ds = some (g1, rest) := by
  cases hgo : g.state.gameOver with
  | true => exact ⟨[], g, [], by simp only [tick, hgo, if_true]⟩
  | false =>
    obtain ⟨ds, s1, rest, hm⟩ :=
      moveSnake_returns { g.state with nextDirection := g.tickNextDirection } hne
    refine ⟨ds, { state := { s1 with nextDirection := g.state.nextDirection },
                  tickNextDirection := g.state.nextDirection }, rest, ?_⟩
    simp only [tick]
    rw [if_neg (by simp [hgo]), hm]

/-- C19: in every reachable game the snake is non-empty, so its head and its last segment
exist, and every snake segment, the food cell and every barrier cell lies in the grid;
`moveSnake` and the tick return on suitable draws. -/
theorem C19_cells_in_grid (g : Game) (hg : Reachable g) :
    (g.state.snake ≠ [] ∧ g.state.snake.head? ≠ none ∧ g.state.snake.getLast? ≠ none) ∧
    (∀ c ∈ g.state.snake, 0 ≤ c.x ∧ c.x < 20 ∧ 0 ≤ c.y ∧ c.y < 20) ∧
    (0 ≤ g.state.food.x ∧ g.state.food.x < 20 ∧ 0 ≤ g.state.food.y ∧ g.state.food.y < 20) ∧
    (∀ c ∈ g.state.barriers, 0 ≤ c.x ∧ c.x < 20 ∧ 0 ≤ c.y ∧ c.y < 20) ∧
    (∃ ds s1 rest, moveSnake g.state ds = some (s1, rest)) ∧
    (∃ ds g1 rest, tick g ds = some (g1, rest)) := by
  obtain ⟨hne, hsn, hfd, hba⟩ := reachable_in_grid g hg
  refine ⟨⟨hne, ?_, ?_⟩, hsn, hfd, hba, moveSnake_returns g.state hne, tick_returns g hne⟩
  · cases hs : g.state.snake with
    | nil => exact absurd hs hne
    | cons a l => simp
  · cases hs : g.state.snake with
    | nil => exact absurd hs hne
    | cons a l => simp [List.getLast?_cons_cons, List.getLast?]

/-- Witness of C19: the reachable game `exBarrierOnFood` has a snake of three segments, all
in the grid. -/
theorem C19_cells_in_grid_witness :
    exBarrierOnFood.state.snake ≠ [] ∧
    ∀ c ∈ exBarrierOnFood.state.snake, 0 ≤ c.x ∧ c.x < 20 ∧ 0 ≤ c.y ∧ c.y < 20 :=
  have h := C19_cells_in_grid exBarrierOnFood exBarrierOnFood_reachable
  ⟨h.1.1, h.2.1⟩

/-- C17, as stated, fails at each place where barriers are generated.  At game start the
barrier sample (5,5) puts the barrier under the snake; on restart the barrier sample (10,10)
puts it on the food cell; and the phase advance that leads to `exBarrierOnFood` puts one
barrier on the new head (11,10) and the other on the new food cell (3,4). -/
theorem C17_barrier_on_occupied_cell :
    (mount 0 [coordDraw 10 (by decide), coordDraw 5 (by decide), coordDraw 5 (by decide)] =
        some (exBarrierOnSnake, []) ∧
      ∃ c, c ∈ exBarrierOnSnake.state.barriers ∧ c ∈ exBarrierOnSnake.state.snake) ∧
    (Reachable exFresh ∧ run exFresh wallThenRestart = some exBarrierAtStart ∧
      ({ x := exBarrierAtStart.state.food.x, y := exBarrierAtStart.state.food.y } : Cell) ∈
        exBarrierAtStart.state.barriers) ∧
    (Reachable exBarrierOnFood ∧
      (∃ c, c ∈ exBarrierOnFood.state.barriers ∧ exBarrierOnFood.state.snake.head? = some c) ∧
      ({ x := exBarrierOnFood.state.food.x, y := exBarrierOnFood.state.food.y } : Cell) ∈
        exBarrierOnFood.state.barriers) :=
  ⟨⟨by decide, { x := 5, y := 5 }, by decide, by decide⟩,
   ⟨exFresh_reachable, by decide, by decide⟩,
   ⟨exBarrierOnFood_reachable, ⟨{ x := 11, y := 10 }, by decide, by decide⟩, by decide⟩⟩

/-- C17, amended: whenever barriers are generated (by a tick that advances the phase, at
game start, on restart), the new barrier list is what `getBarrierPositions` returns for the
new phase on the draws alone; its cells lie in the grid and no cell occurs twice in it. -/
theorem C17_generated_barriers (s : State) (ds : List Draw) (s1 : State) (rest : List Draw)
    (hr : moveSnake s ds = some (s1, rest)) (hadv : s1.phase ≠ s.phase) :
    (s1.barriers.Nodup ∧ (∀ c ∈ s1.barriers, 0 ≤ c.x ∧ c.x < 20 ∧ 0 ≤ c.y ∧ c.y < 20) ∧
      ∃ ds1, getBarrierPositions (s.phase + 1) ds1 = some (s1.barriers, rest)) ∧
    (∀ stored ds0 s0 rest0, initialState stored ds0 = some (s0, rest0) →
      s0.barriers.Nodup ∧ (∀ c ∈ s0.barriers, 0 ≤ c.x ∧ c.x < 20 ∧ 0 ≤ c.y ∧ c.y < 20) ∧
      ∃ ds1, getBarrierPositions 0 ds1 = some (s0.barriers, rest0)) ∧
    (∀ a ds0 s0 rest0, resetGame a ds0 = some (s0, rest0) →
      s0.barriers.Nodup ∧ (∀ c ∈ s0.barriers, 0 ≤ c.x ∧ c.x < 20 ∧ 0 ≤ c.y ∧ c.y < 20) ∧
      ∃ ds1, getBarrierPositions 0 ds1 = some (s0.barriers, rest0)) := by
  refine ⟨?_, ?_, ?_⟩
  · obtain ⟨h, t, -, hcase⟩ := moveSnake_cases s ds s1 rest hr
    rcases hcase with ⟨-, rfl, -⟩ | ⟨-, -, rfl, -⟩ | ⟨-, -, newFood, ds1, p, b, -, hp, rfl⟩
    · exact absurd rfl hadv
    · exact absurd rfl hadv
    · rcases phased_cases s ds1 rest p b hp with ⟨-, -, -, hgb⟩ | ⟨hp1, -, -⟩
      · obtain ⟨-, hnd, hin⟩ := getBarrierPositions_spec _ ds1 rest b hgb
        exact ⟨hnd, hin, ds1, hgb⟩
      · exact absurd hp1 hadv
  · intro stored ds0 s0 rest0 hi
    obtain ⟨dt, ds1, bs, -, hb, rfl⟩ := initialState_cases stored ds0 rest0 s0 hi
    obtain ⟨-, hnd, hin⟩ := getBarrierPositions_spec 0 ds1 rest0 bs hb
    exact ⟨hnd, hin, ds1, hb⟩
  · intro a ds0 s0 rest0 hrs
    obtain ⟨dt, ds1, bs, -, hb, rfl⟩ := resetGame_cases a ds0 rest0 s0 hrs
    obtain ⟨-, hnd, hin⟩ := getBarrierPositions_spec 0 ds1 rest0 bs hb
    exact ⟨hnd, hin, ds1, hb⟩

/-- Witness of C17 as amended: the tick of `exFive` with `advanceDraws` advances to phase 1
and installs the two distinct barriers (3,4) and (11,10). -/
theorem C17_generated_barriers_witness :
    ∃ s1, moveSnake exFive advanceDraws = some (s1, []) ∧ s1.phase = 1 ∧
      s1.barriers = [{ x := 3, y := 4 }, { x := 11, y := 10 }] ∧ s1.barriers.Nodup := by
  have hr : ∃ s1, moveSnake exFive advanceDraws = some (s1, []) ∧ s1.phase = 1 ∧
      s1.barriers = [{ x := 3, y := 4 }, { x := 11, y := 10 }] := ⟨_, rfl, rfl, rfl⟩
  obtain ⟨s1, hr, hp, hb⟩ := hr
  have h := C17_generated_barriers exFive advanceDraws s1 [] hr (by rw [hp]; decide)
  exact ⟨s1, hr, hp, hb, h.1.1⟩

end Snake
